import Mathlib

/-!
# Verification of the RayAdwaita core: VLESS URI decoder and configuration assembler

A shallow embedding of the two core modules of the repository:

* `src/core/url_parser.py` — class `V2rayParser`: decoding a `vless://` URI
  into a configuration dictionary (`parse` / `_parse_vless`) and assembling
  it into the final client configuration document
  (`_build_vless` / `build_config`);
* `src/core/config.py` — dataclasses `InboundConfig` / `OutboundConfig`
  and the builder `ClientConfig` (validation, document assembly,
  JSON save/load).

Modelling conventions:

* A Python `str` is modelled as `List Char` (`Str`), a sequence of Unicode
  scalar values.  (Lone surrogates, which CPython strings can carry, are
  outside the model.)
* Python dictionaries of the configuration documents are modelled by the
  mutually inductive type `PyVal`/`PyList`/`PyDict`; insertion order is part
  of the value, matching CPython's ordered dictionaries.  Keys are strings,
  values are `None`/`bool`/`int`/`str`/`list`/`dict` — the JSON-serialisable
  fragment actually produced by this program (floats, sets, tuples and
  non-string keys do not occur in it).
* Exceptions are modelled by `Except PyErr`.  `PyErr.valueError` covers the
  spec's `MalformedEndpoint` / `InvalidDescriptor` / `IncompleteConfiguration`
  kinds (all are `ValueError`s in the source), `PyErr.keyError` a `KeyError`,
  `PyErr.nameError` a `NameError`, `PyErr.attributeError` an
  `AttributeError`.
* `int()` is modelled for ASCII decimal digits (with the underscore rule of
  Python's int literals); CPython additionally accepts non-ASCII decimal
  digits, which no claim exercises.
* `json.dump(..., indent=4)` / `json.load` are modelled by `jsonDump` /
  `jsonLoads` below, following CPython's `json` module with its default
  `ensure_ascii=True` encoder.
-/

/-- A Python `str`: a list of Unicode scalar values. -/
abbrev Str := List Char

/-- Shorthand turning a Lean string literal into the `Str` model. -/
def S (s : String) : Str := s.toList

/-- The opening curly brace character. -/
def lbrace : Char := Char.ofNat 123

/-- The closing curly brace character. -/
def rbrace : Char := Char.ofNat 125

/-- Python exception kinds raised by the embedded code. -/
inductive PyErr where
  | valueError (msg : String) : PyErr
  | keyError (key : Str) : PyErr
  | nameError (msg : String) : PyErr
  | attributeError (msg : String) : PyErr
deriving DecidableEq

mutual
/-- A Python value of the JSON-serialisable fragment used by the
configuration documents: `None`, `bool`, `int`, `str`, `list`, `dict`. -/
inductive PyVal where
  | none : PyVal
  | bool : Bool → PyVal
  | int : Int → PyVal
  | str : Str → PyVal
  | list : PyList → PyVal
  | dict : PyDict → PyVal
/-- A Python list of `PyVal`s. -/
inductive PyList where
  | nil : PyList
  | cons : PyVal → PyList → PyList
/-- A Python dict with string keys, in insertion order. -/
inductive PyDict where
  | nil : PyDict
  | cons : Str → PyVal → PyDict → PyDict
end

/-- Build a `PyList` from a Lean list (notation helper for literals). -/
def pl : List PyVal → PyList
  | [] => .nil
  | v :: vs => .cons v (pl vs)

/-- Build a `PyDict` from a Lean association list (notation helper). -/
def pd : List (Str × PyVal) → PyDict
  | [] => .nil
  | (k, v) :: es => .cons k v (pd es)

/-- Concatenation of dict entries (used to model consecutive
`config[key] = value` assignments of fresh keys). -/
def PyDict.append : PyDict → PyDict → PyDict
  | .nil, e => e
  | .cons k v rest, e => .cons k v (rest.append e)

/-- Python `d.get(key)`: the value stored under `key`, if any. -/
def dget : PyDict → Str → Option PyVal
  | .nil, _ => Option.none
  | .cons k v rest, key => if k = key then some v else dget rest key

/-- Python `d.get(key, default)`. -/
def dgetD (d : PyDict) (key : Str) (dflt : PyVal) : PyVal :=
  (dget d key).getD dflt

/-- Python `d[key]`: raises `KeyError` when the key is absent. -/
def dindex (d : PyDict) (key : Str) : Except PyErr PyVal :=
  match dget d key with
  | some v => .ok v
  | Option.none => .error (.keyError key)

/-- Python `d[key] = value`: replaces the value in place if the key exists,
otherwise appends the entry. -/
def dset : PyDict → Str → PyVal → PyDict
  | .nil, key, v => .cons key v .nil
  | .cons k w rest, key, v =>
      if k = key then .cons k v rest else .cons k w (dset rest key v)

/-- Python `d.update(e)`: `dset` for each entry of `e` in order. -/
def dupdate : PyDict → PyDict → PyDict
  | d, .nil => d
  | d, .cons k v rest => dupdate (dset d k v) rest

/-- Python truthiness of a value (`if value:`). -/
def pyTruthy : PyVal → Bool
  | .none => false
  | .bool b => b
  | .int n => n ≠ 0
  | .str s => s ≠ []
  | .list .nil => false
  | .list _ => true
  | .dict .nil => false
  | .dict _ => true

/-- Python `value == "lit"` for a string literal `lit` (always `False` when
`value` is not a string). -/
def pvEqStr (v : PyVal) (s : Str) : Bool :=
  match v with
  | .str t => t = s
  | _ => false

/-- Python `.get`-style access requires the receiver to be a dict; on any
other value Python raises `AttributeError`. -/
def asDict : PyVal → Except PyErr PyDict
  | .dict d => .ok d
  | _ => .error (.attributeError "no attribute get")

/-- Characters Python's `str.strip()` removes (the ASCII whitespace set). -/
def isPyWs (c : Char) : Bool :=
  c = ' ' ∨ c = '\t' ∨ c = '\n' ∨ c = '\r' ∨ c = Char.ofNat 11 ∨ c = Char.ofNat 12

/-- Python `str.strip()`. -/
def pyStrip (s : Str) : Str :=
  ((s.dropWhile isPyWs).reverse.dropWhile isPyWs).reverse

/-- Split on the first occurrence of `sep` (Python `s.split(sep, 1)` giving
two parts); `none` when `sep` does not occur. -/
def splitOnce (sep : Char) : Str → Option (Str × Str)
  | [] => Option.none
  | c :: rest =>
      if c = sep then some ([], rest)
      else (splitOnce sep rest).map (fun p => (c :: p.1, p.2))

/-- Split on the last occurrence of `sep` (Python `s.rsplit(sep, 1)` giving
two parts); `none` when `sep` does not occur. -/
def rsplitOnce (sep : Char) (s : Str) : Option (Str × Str) :=
  (splitOnce sep s.reverse).map (fun p => (p.2.reverse, p.1.reverse))

/-- Python `s.split(sep)` (all parts, empty parts kept). -/
def pySplitAll (sep : Char) : Str → List Str
  | [] => [[]]
  | c :: rest =>
      if c = sep then [] :: pySplitAll sep rest
      else
        match pySplitAll sep rest with
        | h :: t => (c :: h) :: t
        | [] => [[c]]

/-- ASCII decimal digit test. -/
def isDigitC (c : Char) : Bool := 48 ≤ c.toNat ∧ c.toNat ≤ 57

/-- Numeric value of an ASCII decimal digit. -/
def digitVal (c : Char) : Nat := c.toNat - 48

/-- Digit tail of a Python integer literal: decimal digits with single
underscores allowed between digits, accumulating the value. -/
def digitsValAux (acc : Nat) : Str → Option Nat
  | [] => some acc
  | c :: rest =>
      if isDigitC c then digitsValAux (10 * acc + digitVal c) rest
      else if c = '_' then
        match rest with
        | d :: rest2 =>
            if isDigitC d then digitsValAux (10 * acc + digitVal d) rest2
            else Option.none
        | [] => Option.none
      else Option.none

/-- Digits of a Python integer literal (must start with a digit). -/
def digitsVal : Str → Option Nat
  | [] => Option.none
  | c :: rest => if isDigitC c then digitsValAux (digitVal c) rest else Option.none

/-- Python `int(s)` for ASCII decimal strings: optional surrounding
whitespace, one optional sign, then digits (underscores between digits). -/
def pyInt (s : Str) : Option Int :=
  match pyStrip s with
  | '+' :: r => (digitsVal r).map Int.ofNat
  | '-' :: r => (digitsVal r).map (fun n => -(n : Int))
  | r => (digitsVal r).map Int.ofNat

/-- Hexadecimal digit value (`0-9`, `a-f`, `A-F`). -/
def hexDigitVal (c : Char) : Option Nat :=
  if 48 ≤ c.toNat ∧ c.toNat ≤ 57 then some (c.toNat - 48)
  else if 97 ≤ c.toNat ∧ c.toNat ≤ 102 then some (c.toNat - 87)
  else if 65 ≤ c.toNat ∧ c.toNat ≤ 70 then some (c.toNat - 55)
  else Option.none

/-- Token stream of `urllib.parse.unquote`: percent escapes become bytes,
everything else stays a character. -/
inductive QTok where
  | ch : Char → QTok
  | byte : Nat → QTok

/-- Scan for `%XX` escapes (a `%` not followed by two hex digits is kept
literally, scanning resuming at the next character, as in CPython). -/
def qTokens : Str → List QTok
  | [] => []
  | '%' :: c1 :: c2 :: rest =>
      match hexDigitVal c1, hexDigitVal c2 with
      | some h1, some h2 => .byte (16 * h1 + h2) :: qTokens rest
      | _, _ => .ch '%' :: qTokens (c1 :: c2 :: rest)
  | c :: rest => .ch c :: qTokens rest

/-- Is a byte a UTF-8 continuation byte? -/
def isCont (b : Nat) : Bool := 0x80 ≤ b ∧ b ≤ 0xBF

/-- The Unicode replacement character, emitted for undecodable bytes
(CPython decodes percent-escaped bytes with `errors='replace'`). -/
def replChar : Char := Char.ofNat 0xFFFD

/-- Strict UTF-8 decoding of the token stream: runs of bytes are decoded,
invalid sequences yield one replacement character per maximal subpart.
The fuel argument (always at least the token count plus one at the call in
`unquote`) only serves structural termination: each step consumes at least
one token. -/
def qDecode : Nat → List QTok → Str
  | 0, _ => []
  | _, [] => []
  | f + 1, .ch c :: rest => c :: qDecode f rest
  | f + 1, .byte b1 :: rest =>
      if b1 < 0x80 then Char.ofNat b1 :: qDecode f rest
      else if 0xC2 ≤ b1 ∧ b1 ≤ 0xDF then
        match rest with
        | .byte b2 :: rest2 =>
            if isCont b2 then Char.ofNat ((b1 - 0xC0) * 64 + (b2 - 0x80)) :: qDecode f rest2
            else replChar :: qDecode f rest
        | _ => replChar :: qDecode f rest
      else if 0xE0 ≤ b1 ∧ b1 ≤ 0xEF then
        match rest with
        | .byte b2 :: rest2 =>
            if (b1 = 0xE0 ∧ 0xA0 ≤ b2 ∧ b2 ≤ 0xBF) ∨
               (0xE1 ≤ b1 ∧ b1 ≤ 0xEC ∧ isCont b2) ∨
               (b1 = 0xED ∧ 0x80 ≤ b2 ∧ b2 ≤ 0x9F) ∨
               (0xEE ≤ b1 ∧ isCont b2) then
              match rest2 with
              | .byte b3 :: rest3 =>
                  if isCont b3 then
                    Char.ofNat ((b1 - 0xE0) * 4096 + (b2 - 0x80) * 64 + (b3 - 0x80)) :: qDecode f rest3
                  else replChar :: replChar :: qDecode f rest3
              | _ => replChar :: replChar :: qDecode f rest2
            else replChar :: qDecode f rest
        | _ => replChar :: qDecode f rest
      else if 0xF0 ≤ b1 ∧ b1 ≤ 0xF4 then
        match rest with
        | .byte b2 :: rest2 =>
            if (b1 = 0xF0 ∧ 0x90 ≤ b2 ∧ b2 ≤ 0xBF) ∨
               (0xF1 ≤ b1 ∧ b1 ≤ 0xF3 ∧ isCont b2) ∨
               (b1 = 0xF4 ∧ 0x80 ≤ b2 ∧ b2 ≤ 0x8F) then
              match rest2 with
              | .byte b3 :: rest3 =>
                  if isCont b3 then
                    match rest3 with
                    | .byte b4 :: rest4 =>
                        if isCont b4 then
                          Char.ofNat ((b1 - 0xF0) * 262144 + (b2 - 0x80) * 4096 +
                            (b3 - 0x80) * 64 + (b4 - 0x80)) :: qDecode f rest4
                        else replChar :: replChar :: replChar :: qDecode f rest4
                    | _ => replChar :: replChar :: replChar :: qDecode f rest3
                  else replChar :: replChar :: qDecode f rest3
              | _ => replChar :: replChar :: qDecode f rest2
            else replChar :: qDecode f rest
        | _ => replChar :: qDecode f rest
      else replChar :: qDecode f rest

/-- `urllib.parse.unquote`: percent-decode, UTF-8, `errors='replace'`. -/
def unquote (s : Str) : Str :=
  qDecode ((qTokens s).length + 1) (qTokens s)

/-- `urllib.parse.unquote_plus`-style decoding used by `parse_qsl`:
`+` becomes a space before percent-decoding. -/
def unquotePlus (s : Str) : Str :=
  unquote (s.map (fun c => if c = '+' then ' ' else c))

/-- `urllib.parse.parse_qsl(qs)`: split on `&`, split each field on the
first `=`, drop fields whose value is empty (`keep_blank_values=False`),
percent-decode names and values. -/
def parse_qsl (qs : Str) : List (Str × Str) :=
  (pySplitAll '&' qs).foldr
    (fun field acc =>
      match splitOnce '=' field with
      | some (n, v) => if v ≠ [] then (unquotePlus n, unquotePlus v) :: acc else acc
      | Option.none => acc)
    []

/-- The query-parameter dictionary: `dict(parse_qsl(...))` — string keys to
string values, last value winning for duplicate keys. -/
abbrev Params := List (Str × Str)

/-- Python `dict.__setitem__` on a string-to-string dict. -/
def paramsSet : Params → Str → Str → Params
  | [], key, v => [(key, v)]
  | (k, w) :: rest, key, v =>
      if k = key then (k, v) :: rest else (k, w) :: paramsSet rest key v

/-- Python `dict(pairs)`. -/
def paramsOfList (l : List (Str × Str)) : Params :=
  l.foldl (fun d kv => paramsSet d kv.1 kv.2) []

/-- Python `params.get(key)`. -/
def paramsGet (params : Params) (key : Str) : Option Str :=
  match params with
  | [] => Option.none
  | (k, v) :: rest => if k = key then some v else paramsGet rest key

/-- Python `params.get(key, default)`. -/
def paramsGetD (params : Params) (key : Str) (dflt : Str) : Str :=
  (paramsGet params key).getD dflt

/-! ## `src/core/url_parser.py` — class `V2rayParser` -/

/-- `url.replace("vless://", "")` (line 22): removes every non-overlapping
occurrence of the scheme text, scanning left to right. -/
def replaceVlessScheme : Str → Str
  | 'v' :: 'l' :: 'e' :: 's' :: 's' :: ':' :: '/' :: '/' :: rest => replaceVlessScheme rest
  | c :: rest => c :: replaceVlessScheme rest
  | [] => []

/-- Lines 24–28: split off an optional `#fragment`, percent-decode it as the
display name (`remarks`), defaulting to `"VLESS"`. Returns
`(url without fragment, remarks)`. -/
def V2rayParser.fragmentSplit (url : Str) : Str × Str :=
  match splitOnce '#' url with
  | some (u, frag) => (u, unquote frag)
  | Option.none => (url, S "VLESS")

/-- Lines 30–35: split off an optional `?query`, parse it with
`dict(parse_qsl(...))`. Returns `(server_part, params)`. -/
def V2rayParser.querySplit (url : Str) : Str × Params :=
  match splitOnce '?' url with
  | some (sp, q) => (sp, paramsOfList (parse_qsl q))
  | Option.none => (url, [])

/-- Lines 37–39: `uuid, server_and_port = server_part.split("@", 1)`,
`server, port = server_and_port.rsplit(":", 1)`, `port = int(port)`.
A missing separator makes the tuple unpacking raise `ValueError`; a
non-numeric port makes `int` raise `ValueError`. -/
def V2rayParser.parse_authority (server_part : Str) : Except PyErr (Str × Str × Int) :=
  match splitOnce '@' server_part with
  | Option.none => .error (.valueError "not enough values to unpack (expected 2, got 1)")
  | some (uuid, server_and_port) =>
      match rsplitOnce ':' server_and_port with
      | Option.none => .error (.valueError "not enough values to unpack (expected 2, got 1)")
      | some (server, portStr) =>
          match pyInt portStr with
          | Option.none => .error (.valueError "invalid literal for int() with base 10")
          | some port => .ok (uuid, server, port)

/-- The first nine entries of the dictionary `_parse_vless` builds
(lines 41–51).  Note the source's misspelled keys `"serverr"` and
`"enctyption"` (lines 44 and 47), kept verbatim. -/
def vlessBaseList (remarks : Str) (params : Params) (uuid server : Str)
    (port : Int) : List (Str × PyVal) := [
  (S "name", .str remarks),
  (S "protocol", .str (S "vless")),
  (S "serverr", .str server),
  (S "port", .int port),
  (S "uuid", .str uuid),
  (S "enctyption", .str (paramsGetD params (S "enctyption") (S "none"))),
  (S "flow", .str (paramsGetD params (S "flow") [])),
  (S "network", .str (paramsGetD params (S "network") (S "tcp"))),
  (S "security", .str (paramsGetD params (S "security") (S "none")))]

/-- The network-kind branch of `_parse_vless` (lines 53–58): at most one
entry, keyed `"tcp"`, `"ws"` or `"grpc"`; nothing for any other network
value. -/
def vlessNetList (params : Params) : List (Str × PyVal) :=
  if paramsGetD params (S "network") (S "tcp") = S "tcp" then
    [(S "tcp", .dict (pd [(S "header_type",
      .str (paramsGetD params (S "headerType") (S "none")))]))]
  else if paramsGetD params (S "network") (S "tcp") = S "ws" then
    [(S "ws", .dict (pd [
      (S "path", .str (paramsGetD params (S "path") (S "/"))),
      (S "host", match paramsGet params (S "host") with
                 | some h => .str h
                 | Option.none => .none)]))]
  else if paramsGetD params (S "network") (S "tcp") = S "grpc" then
    [(S "grpc", .dict (pd [(S "service_name",
      .str (paramsGetD params (S "serviceName") []))]))]
  else []

/-- The security branch of `_parse_vless` (lines 60–72): a `"tls"` entry
when security is `"tls"` or `"reality"`, plus a `"reality"` entry when it is
`"reality"`; nothing for any other security value. -/
def vlessSecList (params : Params) (server : Str) : List (Str × PyVal) :=
  if paramsGetD params (S "security") (S "none") = S "tls" ∨
     paramsGetD params (S "security") (S "none") = S "reality" then
    (S "tls", PyVal.dict (pd [
      (S "server_name", .str (paramsGetD params (S "sni") server)),
      (S "fingerprint", .str (paramsGetD params (S "fp") (S "chrome"))),
      (S "alpn", .list (pl (match paramsGet params (S "alpn") with
        | some a => if a ≠ [] then (pySplitAll ',' a).map PyVal.str else []
        | Option.none => [])))])) ::
    (if paramsGetD params (S "security") (S "none") = S "reality" then
      [(S "reality", PyVal.dict (pd [
        (S "public_key", .str (paramsGetD params (S "pbk") [])),
        (S "short_id", .str (paramsGetD params (S "sid") [])),
        (S "spider_x", .str (paramsGetD params (S "spx") []))]))]
     else [])
  else []

/-- Lines 41–74: the configuration dictionary built by `_parse_vless` from
the decoded pieces — the base entries followed by the network-kind branch
and the security branch. -/
def V2rayParser.vlessConfigOf (remarks : Str) (params : Params) (uuid server : Str)
    (port : Int) : PyDict :=
  pd (vlessBaseList remarks params uuid server port ++
      vlessNetList params ++ vlessSecList params server)

/-- `V2rayParser._parse_vless` (lines 20–74). -/
def V2rayParser.parse_vless (url : Str) : Except PyErr PyDict :=
  let url1 := replaceVlessScheme url
  let fr := V2rayParser.fragmentSplit url1
  let qs := V2rayParser.querySplit fr.1
  (V2rayParser.parse_authority qs.1).map
    (fun t => V2rayParser.vlessConfigOf fr.2 qs.2 t.1 t.2.1 t.2.2)

/-- `V2rayParser.parse` (lines 10–17): strip whitespace, dispatch on the
`vless://` scheme prefix, `None` (no decoder matched) otherwise. -/
def V2rayParser.parse (url : Str) : Option (Except PyErr PyDict) :=
  let url := pyStrip url
  if (S "vless://").isPrefixOf url then some (V2rayParser.parse_vless url)
  else Option.none

/-- The transport branch of `_build_vless` (lines 101–117): the single
`streamSettings` entry determined by the network value — `tcpSettings`,
`wsSettings` or `grpcSettings`, each with its written defaults — or
nothing for any other network value.  The `.get` on the transport
sub-dict raises `AttributeError` if that value is not a dict. -/
def V2rayParser.buildNet (config : PyDict) (network : PyVal) :
    Except PyErr (List (Str × PyVal)) :=
  if pvEqStr network (S "tcp") then
    match asDict (dgetD config (S "tcp") (.dict .nil)) with
    | .error e => .error e
    | .ok tcpd => .ok [(S "tcpSettings", PyVal.dict (pd [(S "header", .dict (pd [
        (S "type", dgetD tcpd (S "header_type") (.str (S "none")))]))]))]
  else if pvEqStr network (S "ws") then
    match asDict (dgetD config (S "ws") (.dict .nil)) with
    | .error e => .error e
    | .ok wsd => .ok [(S "wsSettings", PyVal.dict (pd [
        (S "path", dgetD wsd (S "path") (.str (S "/"))),
        (S "headers", .dict (match dget wsd (S "host") with
          | some h => if pyTruthy h then pd [(S "Host", h)] else .nil
          | Option.none => .nil))]))]
  else if pvEqStr network (S "grpc") then
    match asDict (dgetD config (S "grpc") (.dict .nil)) with
    | .error e => .error e
    | .ok grpcd => .ok [(S "grpcSettings", PyVal.dict (pd [
        (S "serviceName", dgetD grpcd (S "service_name") (.str []))]))]
  else .ok []

/-- The security branch of `_build_vless` (lines 119–136): `tlsSettings`
for `"tls"`, `realitySettings` for `"reality"`, nothing otherwise (the
final inner fallback is unreachable because the outer condition already
restricts to these two values). -/
def V2rayParser.buildSec (config : PyDict) (security server : PyVal) :
    Except PyErr (List (Str × PyVal)) :=
  if pvEqStr security (S "tls") ∨ pvEqStr security (S "reality") then
    match asDict (dgetD config (S "tls") (.dict .nil)) with
    | .error e => .error e
    | .ok tlsd =>
        if pvEqStr security (S "tls") then
          .ok [(S "tlsSettings", PyVal.dict (pd [
            (S "serverName", dgetD tlsd (S "server_name") server),
            (S "fingerprint", dgetD tlsd (S "fingerprint") (.str (S "chrome"))),
            (S "alpn", dgetD tlsd (S "alpn") (.list .nil))]))]
        else if pvEqStr security (S "reality") then
          match asDict (dgetD config (S "reality") (.dict .nil)) with
          | .error e => .error e
          | .ok rld => .ok [(S "realitySettings", PyVal.dict (pd [
              (S "serverName", dgetD tlsd (S "server_name") server),
              (S "fingerprint", dgetD tlsd (S "fingerprint") (.str (S "chrome"))),
              (S "publicKey", dgetD rld (S "public_key") (.str [])),
              (S "shortId", dgetD rld (S "short_id") (.str [])),
              (S "spiderX", dgetD rld (S "spider_x") (.str []))]))]
        else .ok []
  else .ok []

/-- The outbound dictionary of `_build_vless` (lines 78–99) with the
transport and security entries appended to `streamSettings`. -/
def V2rayParser.mkOutbound (server port uuid encryption flow network security : PyVal)
    (net sec : List (Str × PyVal)) : PyVal :=
  .dict (pd [
    (S "protocol", .str (S "vless")),
    (S "settings", .dict (pd [(S "vnext", .list (pl [ .dict (pd [
      (S "address", server),
      (S "port", port),
      (S "users", .list (pl [ .dict (pd [
        (S "id", uuid),
        (S "encryption", encryption),
        (S "flow", flow)])]))])]))])),
    (S "streamSettings", .dict (pd ([
      (S "network", network),
      (S "security", security)] ++ net ++ sec)))])

/-- `V2rayParser._build_vless` (lines 77–138): assemble the VLESS outbound
dictionary from a parsed configuration dictionary.  Bracket lookups
(`config["server"]`, …) raise `KeyError` when absent, in the evaluation
order of the dict literal; `.get` lookups use the written defaults. -/
def V2rayParser.build_vless (config : PyDict) : Except PyErr PyVal :=
  match dindex config (S "server") with
  | .error e => .error e
  | .ok server =>
  match dindex config (S "port") with
  | .error e => .error e
  | .ok port =>
  match dindex config (S "uuid") with
  | .error e => .error e
  | .ok uuid =>
  match dindex config (S "encryption") with
  | .error e => .error e
  | .ok encryption =>
  match dindex config (S "network") with
  | .error e => .error e
  | .ok network =>
  match dindex config (S "security") with
  | .error e => .error e
  | .ok security =>
  match V2rayParser.buildNet config network with
  | .error e => .error e
  | .ok net =>
  match V2rayParser.buildSec config security server with
  | .error e => .error e
  | .ok sec =>
    .ok (V2rayParser.mkOutbound server port uuid encryption
      (dgetD config (S "flow") (.str [])) network security net sec)

/-- `V2rayParser.build_config` (lines 140–168): the full document of the
decoder path.  For a non-`"vless"` protocol tag the source leaves the local
variable `outbound` unbound and the dict literal raises `NameError`. -/
def V2rayParser.build_config (parsed_config : PyDict) (inbound_port : Int) :
    Except PyErr PyVal := do
  let protocol ← dindex parsed_config (S "protocol")
  if pvEqStr protocol (S "vless") then do
    let outbound ← V2rayParser.build_vless parsed_config
    pure (.dict (pd [
      (S "log", .dict (pd [(S "loglevel", .str (S "warning"))])),
      (S "inbounds", .list (pl [ .dict (pd [
        (S "port", .int inbound_port),
        (S "protocol", .str (S "socks")),
        (S "settings", .dict (pd [
          (S "auth", .str (S "noauth")),
          (S "udp", .bool true)])),
        (S "sniffing", .dict (pd [
          (S "enabled", .bool true),
          (S "destOverride", .list (pl [.str (S "http"), .str (S "tls")]))]))])])),
      (S "outbounds", .list (pl [
        outbound,
        .dict (pd [(S "protocol", .str (S "freedom")), (S "tag", .str (S "direct"))]),
        .dict (pd [(S "protocol", .str (S "blackhole")), (S "tag", .str (S "block"))])])),
      (S "routing", .dict (pd [(S "rules", .list (pl [ .dict (pd [
        (S "type", .str (S "field")),
        (S "ip", .list (pl [.str (S "geoip:private")])),
        (S "outboundTag", .str (S "direct"))])]))]))]))
  else .error (.nameError "name 'outbound' is not defined")

/-! ## Model of CPython `json.dump(..., indent=4)` and `json.load`

`ClientConfig.save` serialises with `json.dump(config_dict, f, indent=4)`
(default `ensure_ascii=True`) and `ClientConfig.load` reads it back with
`json.load`.  The printer below reproduces that encoder on the `PyVal`
fragment; the reader is CPython's decoder restricted to what documents of
this fragment can contain (integer numbers; strings of Unicode scalar
values, so the decoder's tolerance of lone `\uXXXX` surrogates is dropped).
-/

/-- The decimal digit characters. -/
def digitChar (n : Nat) : Char :=
  match n with
  | 0 => '0' | 1 => '1' | 2 => '2' | 3 => '3' | 4 => '4'
  | 5 => '5' | 6 => '6' | 7 => '7' | 8 => '8' | _ => '9'

/-- Lowercase hexadecimal digit characters (as in `'\u%04x'`). -/
def hexChar (n : Nat) : Char :=
  match n with
  | 0 => '0' | 1 => '1' | 2 => '2' | 3 => '3' | 4 => '4'
  | 5 => '5' | 6 => '6' | 7 => '7' | 8 => '8' | 9 => '9'
  | 10 => 'a' | 11 => 'b' | 12 => 'c' | 13 => 'd' | 14 => 'e' | _ => 'f'

/-- Four lowercase hex digits of a value below `0x10000`. -/
def toHex4 (n : Nat) : Str :=
  [hexChar (n / 4096), hexChar (n / 256 % 16), hexChar (n / 16 % 16), hexChar (n % 16)]

/-- Decimal digits of a natural number, least significant first.  The fuel
(first argument, at least the digit count at every use) only drives
structural termination. -/
def natDigitsRevF : Nat → Nat → Str
  | 0, _ => []
  | f + 1, n => if n = 0 then [] else digitChar (n % 10) :: natDigitsRevF f (n / 10)

/-- Decimal notation of a natural number. -/
def natToStr (n : Nat) : Str :=
  if n = 0 then ['0'] else (natDigitsRevF (n + 1) n).reverse

/-- Decimal notation of an integer (Python `repr` of an `int`). -/
def intToStr (i : Int) : Str :=
  if i < 0 then '-' :: natToStr i.natAbs else natToStr i.natAbs

/-- The JSON escape of one character under `ensure_ascii=True`: short
escapes for `"`​, `\`, and the five named control characters; characters
from space to tilde literally; everything else as `\uXXXX`, astral
characters as a surrogate pair. -/
def escapeChar (c : Char) : Str :=
  if c = '"' then ['\\', '"']
  else if c = '\\' then ['\\', '\\']
  else if c = '\n' then ['\\', 'n']
  else if c = '\r' then ['\\', 'r']
  else if c = '\t' then ['\\', 't']
  else if c = Char.ofNat 8 then ['\\', 'b']
  else if c = Char.ofNat 12 then ['\\', 'f']
  else if 0x20 ≤ c.toNat ∧ c.toNat ≤ 0x7E then [c]
  else if c.toNat < 0x10000 then '\\' :: 'u' :: toHex4 c.toNat
  else
    ('\\' :: 'u' :: toHex4 (0xD800 + (c.toNat - 0x10000) / 0x400)) ++
    ('\\' :: 'u' :: toHex4 (0xDC00 + (c.toNat - 0x10000) % 0x400))

/-- JSON escaping of a string body. -/
def escString (s : Str) : Str := (s.map escapeChar).flatten

/-- A quoted, escaped object key followed by the `': '` key separator. -/
def dumpKey (k : Str) : Str := '"' :: (escString k ++ ['"', ':', ' '])

/-- Indentation at nesting depth `d` (`indent=4`). -/
def pad (d : Nat) : Str := List.replicate (4 * d) ' '

mutual
/-- `json.dump(..., indent=4)` of a value at nesting depth `d`. -/
def dumpVal (d : Nat) : PyVal → Str
  | .none => S "null"
  | .bool true => S "true"
  | .bool false => S "false"
  | .int n => intToStr n
  | .str s => '"' :: (escString s ++ ['"'])
  | .list .nil => ['[', ']']
  | .list (.cons v vs) =>
      '[' :: '\n' :: (pad (d + 1) ++ (dumpVal (d + 1) v ++
        (dumpItems (d + 1) vs ++ ('\n' :: (pad d ++ [']'])))))
  | .dict .nil => [lbrace, rbrace]
  | .dict (.cons k v es) =>
      lbrace :: '\n' :: (pad (d + 1) ++ (dumpKey k ++ (dumpVal (d + 1) v ++
        (dumpEntries (d + 1) es ++ ('\n' :: (pad d ++ [rbrace]))))))
/-- The remaining list items, each preceded by `',\n'` and indentation. -/
def dumpItems (d : Nat) : PyList → Str
  | .nil => []
  | .cons v vs => ',' :: '\n' :: (pad d ++ (dumpVal d v ++ dumpItems d vs))
/-- The remaining dict entries, each preceded by `',\n'` and indentation. -/
def dumpEntries (d : Nat) : PyDict → Str
  | .nil => []
  | .cons k v es =>
      ',' :: '\n' :: (pad d ++ (dumpKey k ++ (dumpVal d v ++ dumpEntries d es)))
end

/-- `json.dump(value, f, indent=4)`: the text written to the file. -/
def jsonDump (v : PyVal) : Str := dumpVal 0 v

/-- JSON whitespace skipped by the decoder. -/
def isWsJ (c : Char) : Bool := c = ' ' ∨ c = '\t' ∨ c = '\n' ∨ c = '\r'

/-- Drop leading JSON whitespace. -/
def skipWs : Str → Str
  | [] => []
  | c :: rest => if isWsJ c then skipWs rest else c :: rest

/-- Value of a short escape character (`\"`, `\\`, `\/`, `\b`, `\f`, `\n`,
`\r`, `\t`). -/
def escCharOf (e : Char) : Option Char :=
  if e = '"' then some '"'
  else if e = '\\' then some '\\'
  else if e = '/' then some '/'
  else if e = 'b' then some (Char.ofNat 8)
  else if e = 'f' then some (Char.ofNat 12)
  else if e = 'n' then some '\n'
  else if e = 'r' then some '\r'
  else if e = 't' then some '\t'
  else Option.none

/-- Four hex digits to their value (below `0x10000`). -/
def hex4 (a b c d : Char) : Option Nat :=
  match hexDigitVal a, hexDigitVal b, hexDigitVal c, hexDigitVal d with
  | some x, some y, some z, some w => some (4096 * x + 256 * y + 16 * z + w)
  | _, _, _, _ => Option.none

/-- Prepend a decoded character to a string-parse result. -/
def withChar (c : Char) (r : Option (Str × Str)) : Option (Str × Str) :=
  r.map (fun p => (c :: p.1, p.2))

/-! Decoding a JSON string body: the input starts after the opening
quote; the result is the decoded body and the text after the closing
quote.  Surrogate pairs are recombined; lone surrogates are rejected. -/
mutual
/-- Body of the string scan: a quote closes the string, a backslash starts
an escape, raw control characters are rejected (`strict=True`), anything
else is taken literally. -/
def parseStr : Str → Option (Str × Str)
  | [] => Option.none
  | c :: rest =>
      if c = '"' then some ([], rest)
      else if c = '\\' then parseEsc rest
      else if c.toNat < 0x20 then Option.none
      else withChar c (parseStr rest)
/-- The text after a backslash: `\uXXXX` or a short escape. -/
def parseEsc : Str → Option (Str × Str)
  | [] => Option.none
  | e :: rest2 =>
      if e = 'u' then parseU rest2
      else
        match escCharOf e with
        | some ec => withChar ec (parseStr rest2)
        | Option.none => Option.none
/-- The four hex digits after `\u`; a high surrogate must be followed by a
low one, a lone low surrogate is rejected. -/
def parseU : Str → Option (Str × Str)
  | h1 :: h2 :: h3 :: h4 :: rest3 =>
      match hex4 h1 h2 h3 h4 with
      | some h =>
          if 0xD800 ≤ h ∧ h ≤ 0xDBFF then parseLow h rest3
          else if 0xDC00 ≤ h ∧ h ≤ 0xDFFF then Option.none
          else withChar (Char.ofNat h) (parseStr rest3)
      | Option.none => Option.none
  | _ => Option.none
/-- The `\uXXXX` low-surrogate escape after a high surrogate `h`; the two
recombine into one astral character. -/
def parseLow (h : Nat) : Str → Option (Str × Str)
  | b1 :: b2 :: l1 :: l2 :: l3 :: l4 :: rest4 =>
      if b1 = '\\' ∧ b2 = 'u' then
        match hex4 l1 l2 l3 l4 with
        | some l =>
            if 0xDC00 ≤ l ∧ l ≤ 0xDFFF then
              withChar (Char.ofNat (0x10000 + (h - 0xD800) * 0x400 + (l - 0xDC00)))
                (parseStr rest4)
            else Option.none
        | Option.none => Option.none
      else Option.none
  | _ => Option.none
end

/-- Split off the leading run of decimal digits. -/
def spanDigits : Str → Str × Str
  | [] => ([], [])
  | c :: rest =>
      if isDigitC c then
        match spanDigits rest with
        | (ds, r) => (c :: ds, r)
      else ([], c :: rest)

/-- Value of a digit run (most significant first). -/
def digitsToNat (ds : Str) : Nat := ds.foldl (fun a c => 10 * a + digitVal c) 0

/-- Parse a nonempty digit run into its value. -/
def parseNatM (s : Str) : Option (Nat × Str) :=
  match spanDigits s with
  | ([], _) => Option.none
  | (ds, r) => some (digitsToNat ds, r)

/-- Strip an expected literal prefix (the tail of `null`, `true` or
`false` after its first character), failing on any mismatch. -/
def stripLit : Str → Str → Option Str
  | [], s => some s
  | _ :: _, [] => Option.none
  | c :: w, x :: s => if x = c then stripLit w s else Option.none

mutual
/-- Decode one JSON value; the input must already start at the value (the
entry point `parseVal` strips leading whitespace first).  The fuel (first
argument) bounds the recursion depth; `jsonLoads` supplies more than any
input can need. -/
def parseValCore : Nat → Str → Option (PyVal × Str)
  | 0, _ => Option.none
  | f + 1, s =>
      match s with
      | [] => Option.none
      | c :: rest =>
          if c = 'n' then
            match stripLit (S "ull") rest with
            | some r => some (.none, r)
            | Option.none => Option.none
          else if c = 't' then
            match stripLit (S "rue") rest with
            | some r => some (.bool true, r)
            | Option.none => Option.none
          else if c = 'f' then
            match stripLit (S "alse") rest with
            | some r => some (.bool false, r)
            | Option.none => Option.none
          else if c = '"' then (parseStr rest).map (fun p => (.str p.1, p.2))
          else if c = '[' then
            let r2 := skipWs rest
            if r2.head? = some ']' then some (.list .nil, r2.tail)
            else (parseItems f r2).map (fun p => (.list p.1, p.2))
          else if c = lbrace then
            let r2 := skipWs rest
            if r2.head? = some rbrace then some (.dict .nil, r2.tail)
            else (parseEntries f r2).map (fun p => (.dict p.1, p.2))
          else if c = '-' then (parseNatM rest).map (fun p => (.int (-(p.1 : Int)), p.2))
          else (parseNatM (c :: rest)).map (fun p => (.int (p.1 : Int), p.2))
/-- Decode the items of a nonempty JSON array up to and including `]`. -/
def parseItems : Nat → Str → Option (PyList × Str)
  | 0, _ => Option.none
  | f + 1, s =>
      match parseValCore f (skipWs s) with
      | some (v, r) =>
          (match skipWs r with
           | c :: r2 =>
               if c = ',' then (parseItems f r2).map (fun p => (PyList.cons v p.1, p.2))
               else if c = ']' then some (.cons v .nil, r2)
               else Option.none
           | [] => Option.none)
      | Option.none => Option.none
/-- Decode the entries of a nonempty JSON object up to and including the
closing brace. -/
def parseEntries : Nat → Str → Option (PyDict × Str)
  | 0, _ => Option.none
  | f + 1, s =>
      match skipWs s with
      | c0 :: r0 =>
          if c0 = '"' then
            match parseStr r0 with
            | some (k, r1) =>
                (match skipWs r1 with
                 | c1 :: r2 =>
                     if c1 = ':' then
                       match parseValCore f (skipWs r2) with
                       | some (v, r3) =>
                           (match skipWs r3 with
                            | c2 :: r4 =>
                                if c2 = ',' then
                                  (parseEntries f r4).map (fun p => (PyDict.cons k v p.1, p.2))
                                else if c2 = rbrace then some (.cons k v .nil, r4)
                                else Option.none
                            | [] => Option.none)
                       | Option.none => Option.none
                     else Option.none
                 | [] => Option.none)
            | Option.none => Option.none
          else Option.none
      | [] => Option.none
end

/-- Decode one JSON value after leading whitespace. -/
def parseVal (f : Nat) (s : Str) : Option (PyVal × Str) :=
  parseValCore f (skipWs s)

/-- Only JSON whitespace. -/
def wsOnly (w : Str) : Prop := ∀ c ∈ w, isWsJ c = true

/-- The decode of a printed value must not be followed directly by another
digit (numbers are not self-delimiting); inside documents a separator or
closing bracket always follows. -/
def noDigitHead : Str → Prop
  | [] => True
  | c :: _ => isDigitC c = false

/-- `json.load`: decode one document, requiring only whitespace after it. -/
def jsonLoads (s : Str) : Option PyVal :=
  match parseVal (s.length + 1) s with
  | some (v, r) => if skipWs r = [] then some v else Option.none
  | Option.none => Option.none

mutual
/-- Structural size driving the fuel bound of `parseVal`. -/
def psize : PyVal → Nat
  | .list l => 1 + psizeL l
  | .dict d => 1 + psizeD d
  | _ => 1
/-- Size of a list's items. -/
def psizeL : PyList → Nat
  | .nil => 0
  | .cons v vs => 1 + psize v + psizeL vs
/-- Size of a dict's entries. -/
def psizeD : PyDict → Nat
  | .nil => 0
  | .cons _ v es => 1 + psize v + psizeD es
end

/-! ## `src/core/config.py` — descriptors and the `ClientConfig` builder -/

/-- `InboundProtocol` (lines 8–10). -/
inductive InboundProtocol where
  | socks : InboundProtocol
  | http : InboundProtocol
deriving DecidableEq

/-- The enum member's `.value`. -/
def InboundProtocol.value : InboundProtocol → Str
  | .socks => S "socks"
  | .http => S "http"

/-- `OutboundProtocol` (lines 13–14). -/
inductive OutboundProtocol where
  | vless : OutboundProtocol
deriving DecidableEq

/-- The enum member's `.value`. -/
def OutboundProtocol.value : OutboundProtocol → Str
  | .vless => S "vless"

/-- `LogLevel` (lines 17–22). -/
inductive LogLevel where
  | debug : LogLevel
  | info : LogLevel
  | warning : LogLevel
  | error : LogLevel
  | critical : LogLevel
deriving DecidableEq

/-- The enum member's `.value`. -/
def LogLevel.value : LogLevel → Str
  | .debug => S "debug"
  | .info => S "info"
  | .warning => S "warning"
  | .error => S "error"
  | .critical => S "critical"

/-- The `InboundConfig` dataclass (lines 25–48): a listener descriptor. -/
structure InboundConfig where
  port : Int
  protocol : InboundProtocol
  listen : Str
  settings : PyDict

/-- The class-level default of the `settings` field: the literal `{}`
(line 39). -/
def inboundSettingsDefault : PyVal := .dict .nil

/-- Is a value rejected as a dataclass field default?  `@dataclass` raises
`ValueError` at class creation for any unhashable default (`list`, `dict`,
`set`); `InboundConfig.settings` has the mutable default `{}`, so importing
`config.py` fails before any descriptor can be constructed. -/
def pyUnhashable : PyVal → Bool
  | .dict _ => true
  | .list _ => true
  | _ => false

/-- Constructing an `InboundConfig(port, protocol, listen, settings)`:
the generated `__init__` followed by `__post_init__` (lines 41–48), which
raises `ValueError` unless `1024 < port < 65535`.  The Python defaults are
`port=1080`, `protocol=SOCKS`, `listen="127.0.0.1"`, `settings={}`. -/
def InboundConfig.make (port : Int) (protocol : InboundProtocol) (listen : Str)
    (settings : PyDict) : Except PyErr InboundConfig :=
  if 1024 < port ∧ port < 65535 then .ok ⟨port, protocol, listen, settings⟩
  else .error (.valueError "Port must be between 1025 and 65534")

/-- The `OutboundConfig` dataclass (lines 51–63). -/
structure OutboundConfig where
  protocol : OutboundProtocol
  settings : PyDict
  stream_settings : Option PyDict

/-- The `ClientConfig` builder state (lines 73–85): the two descriptor
lists and the current log level (initially `WARNING`).  The configuration
file path only names the external storage location and carries no
document state, so it is not part of the model. -/
structure ClientConfig where
  inbound_configs : List InboundConfig
  outbound_configs : List OutboundConfig
  log_level : LogLevel

/-- `ClientConfig.validate` (lines 205–214): `ValueError` when either
descriptor list is empty. -/
def ClientConfig.validate (c : ClientConfig) : Except PyErr Unit :=
  match c.inbound_configs with
  | [] => .error (.valueError "Inbound configuration is not set")
  | _ :: _ =>
      match c.outbound_configs with
      | [] => .error (.valueError "Outbound configuration is not set")
      | _ :: _ => .ok ()

/-- One flattened inbound section of the document (lines 242–250). -/
def inboundSection (ib : InboundConfig) : PyVal :=
  .dict (pd [
    (S "port", .int ib.port),
    (S "listen", .str ib.listen),
    (S "protocol", .str ib.protocol.value),
    (S "settings", .dict ib.settings)])

/-- One flattened outbound section (lines 252–259): `streamSettings` is
emitted only when `outbound.stream_settings` is truthy (so neither for
`None` nor for an empty dict). -/
def outboundSection (ob : OutboundConfig) : PyVal :=
  .dict (pd ([
    (S "protocol", .str ob.protocol.value),
    (S "settings", .dict ob.settings)] ++
    (match ob.stream_settings with
     | some (.cons k v ss) => [(S "streamSettings", .dict (.cons k v ss))]
     | some .nil => []
     | Option.none => [])))

/-- `ClientConfig.build_config` (lines 216–261): validate, then assemble
the document.  The `inbounds`/`outbounds` lists are filled by the two
loops; the key order of the literal (lines 230–240) is preserved. -/
def ClientConfig.build_config (c : ClientConfig) : Except PyErr PyVal :=
  match c.validate with
  | .error e => .error e
  | .ok _ =>
      .ok (.dict (pd [
        (S "log", .dict (pd [(S "loglevel", .str c.log_level.value)])),
        (S "inbounds", .list (pl (c.inbound_configs.map inboundSection))),
        (S "outbounds", .list (pl (c.outbound_configs.map outboundSection))),
        (S "routing", .dict (pd [
          (S "domainStrategy", .str (S "IPIfNonMatch")),
          (S "rules", .list (pl [ .dict (pd [
            (S "type", .str (S "field")),
            (S "outboundTag", .str (S "direct")),
            (S "ip", .list (pl [.str (S "geoip:private")]))])]))]))]))

/-- `ClientConfig.add_vless_outbound` (lines 155–203): append a VLESS
outbound; a TLS stream-settings block is attached only for
`security == "tls"`.  Python defaults: `flow="xtls-rprx-vision"`,
`security="none"`. -/
def ClientConfig.add_vless_outbound (c : ClientConfig) (address : Str) (port : Int)
    (uuid : Str) (flow : Str) (security : Str) : ClientConfig :=
  let ob : OutboundConfig :=
    { protocol := .vless
      settings := pd [(S "vnext", .list (pl [ .dict (pd [
        (S "address", .str address),
        (S "port", .int port),
        (S "users", .list (pl [ .dict (pd [
          (S "id", .str uuid),
          (S "flow", .str flow),
          (S "encryption", .str security)])]))])]))]
      stream_settings :=
        if security = S "tls" then
          some (pd [
            (S "network", .str (S "tcp")),
            (S "security", .str (S "tls")),
            (S "tlsSettings", .dict (pd [
              (S "allowInsecure", .bool false),
              (S "serverName", .str address)]))])
        else Option.none }
  { c with outbound_configs := c.outbound_configs ++ [ob] }

/-- `ClientConfig.save` (lines 263–267): build the document and write its
`json.dump(..., indent=4)` text; the model returns the text written to the
configuration file.  A validation failure propagates before anything is
written. -/
def ClientConfig.save (c : ClientConfig) : Except PyErr Str :=
  match c.build_config with
  | .ok d => .ok (jsonDump d)
  | .error e => .error e

/-- `ClientConfig.load` (lines 269–276): `json.load` of the stored text
(the model takes the file's content); a decode failure is
`json.JSONDecodeError`, a subclass of `ValueError`. -/
def ClientConfig.load (stored : Str) : Except PyErr PyVal :=
  match jsonLoads stored with
  | some v => .ok v
  | Option.none => .error (.valueError "Expecting value")

/-! ### Heap model for `ClientConfig.add_inbound`

`add_inbound` (lines 107–140) mutates the *caller's* `InboundConfig`
object in place (`inbound_config.settings.update(...)`) and appends that
same object to `self.inbound_configs`.  To state this aliasing faithfully,
descriptors live in a store (`Heap`) and the builder's inbound list holds
references into it. -/

/-- A reference to a descriptor object: an index into the heap. -/
abbrev Ref := Nat

/-- The store of `InboundConfig` objects. -/
structure Heap where
  objs : List InboundConfig

/-- Builder state whose inbound list holds references (object identities)
rather than copies. -/
structure BuilderState where
  inbound_refs : List Ref
  outbound_configs : List OutboundConfig
  log_level : LogLevel

/-- Replace the element at index `i` by `f` of it (identity elsewhere). -/
def listModify : List α → Nat → (α → α) → List α
  | [], _, _ => []
  | x :: xs, 0, f => f x :: xs
  | x :: xs, i + 1, f => x :: listModify xs i f

/-- The protocol-mandated default settings `add_inbound` merges in:
SOCKS gains `auth`/`udp`/`ip` (lines 122–129), HTTP gains
`timeout`/`allowTransparent` (lines 130–136). -/
def inboundDefaults (p : InboundProtocol) (listen : Str) : PyDict :=
  match p with
  | .socks => pd [
      (S "auth", .str (S "noauth")),
      (S "udp", .bool true),
      (S "ip", .str listen)]
  | .http => pd [
      (S "timeout", .int 0),
      (S "allowTransparent", .bool false)]

/-- The in-place effect of `add_inbound` on the descriptor object:
`settings.update(defaults)`; every other field is untouched. -/
def applyInboundDefaults (ic : InboundConfig) : InboundConfig :=
  { ic with settings := dupdate ic.settings (inboundDefaults ic.protocol ic.listen) }

/-- `ClientConfig.add_inbound` (lines 107–140) over the heap model: update
the referenced object's settings in place and append the same reference to
the builder's inbound list. -/
def ClientConfig.add_inbound (h : Heap) (st : BuilderState) (r : Ref) :
    Heap × BuilderState :=
  (⟨listModify h.objs r applyInboundDefaults⟩,
   { st with inbound_refs := st.inbound_refs ++ [r] })

/-- Follow a path of dict keys inside a value (a statement helper:
`vGetPath v [k1, k2]` is Python's `v[k1][k2]` when every step exists). -/
def vGetPath : PyVal → List Str → Option PyVal
  | v, [] => some v
  | v, k :: ks =>
      match v with
      | .dict d =>
          (match dget d k with
           | some w => vGetPath w ks
           | Option.none => Option.none)
      | _ => Option.none

/-- `vGetPath` through a non-raising result. -/
def exGet (r : Except PyErr PyVal) (ks : List Str) : Option PyVal :=
  match r with
  | .ok v => vGetPath v ks
  | .error _ => Option.none

/-! ## Concrete inputs used by the claim theorems -/

/-- The concrete URI of the spec's decode-and-assemble scenario. -/
def uriC1 : Str :=
  S "vless://11111111-2222-3333-4444-555555555555@example.com:443?security=tls&sni=cdn.example.com&fp=chrome&alpn=h2,http/1.1#MyServer"

/-- A URI with a network value outside the tcp/ws/grpc set. -/
def uriQuic : Str := S "vless://u@h:80?network=quic"

/-- A URI with a security value outside the none/tls/reality set. -/
def uriSecFoo : Str := S "vless://u@h:1?security=foo"

/-- A URI whose query contains `alpn` with an empty value. -/
def uriAlpnEmpty : Str := S "vless://u@h:1?security=tls&alpn="

/-- A URI with a nonempty `alpn` list. -/
def uriAlpnTwo : Str := S "vless://u@h:1?security=tls&alpn=h2,http/1.1"

/-- A URI whose endpoint has network kind WebSocket, with a path and a
host supplied. -/
def uriWs : Str := S "vless://u@h:1?network=ws&path=/chat&host=cdn.example.com"

/-- A sample builder state with one SOCKS inbound and one VLESS outbound
(used to instantiate the universally quantified theorems). -/
def sampleClientConfig : ClientConfig :=
  { inbound_configs := [InboundConfig.mk 1080 .socks (S "127.0.0.1")
      (pd [(S "auth", .str (S "noauth")), (S "udp", .bool true),
           (S "ip", .str (S "127.0.0.1"))])]
    outbound_configs :=
      (ClientConfig.add_vless_outbound (ClientConfig.mk [] [] .warning)
        (S "example.com") 443 (S "11111111-2222-3333-4444-555555555555")
        (S "xtls-rprx-vision") (S "tls")).outbound_configs
    log_level := .warning }

/-- An empty builder state. -/
def emptyClientConfig : ClientConfig :=
  { inbound_configs := [], outbound_configs := [], log_level := .warning }

/-- A configuration dictionary with a WebSocket transport, carrying every
key `_build_vless` reads (used to instantiate the transport-mapping
theorem). -/
def sampleWsConfig : PyDict := pd [
  (S "server", .str (S "example.com")),
  (S "port", .int 443),
  (S "uuid", .str (S "u")),
  (S "encryption", .str (S "none")),
  (S "network", .str (S "ws")),
  (S "security", .str (S "none")),
  (S "ws", .dict (pd [
    (S "path", .str (S "/chat")),
    (S "host", .str (S "cdn.example.com"))]))]

/-- A sample descriptor for the `add_inbound` heap theorem. -/
def sampleInbound : InboundConfig :=
  { port := 1080, protocol := .socks, listen := S "127.0.0.1", settings := .nil }

/-- The document the assembler produces for `sampleClientConfig` (used to
instantiate the save/load round-trip theorem at a concrete input). -/
def sampleDoc : PyVal :=
  match ClientConfig.build_config sampleClientConfig with
  | .ok d => d
  | .error _ => PyVal.none

/-! ## Helper lemmas -/

theorem dget_pd_cons (k1 : Str) (v1 : PyVal) (l : List (Str × PyVal)) (k : Str) :
    dget (pd ((k1, v1) :: l)) k = if k1 = k then some v1 else dget (pd l) k := rfl

theorem dget_pd_append_none {l1 l2 : List (Str × PyVal)} {k : Str}
    (h : dget (pd l1) k = Option.none) :
    dget (pd (l1 ++ l2)) k = dget (pd l2) k := by
  induction l1 with
  | nil => rfl
  | cons e rest ih =>
      obtain ⟨k1, v1⟩ := e
      rw [List.cons_append, dget_pd_cons]
      rw [dget_pd_cons] at h
      by_cases hk : k1 = k
      · rw [if_pos hk] at h; cases h
      · rw [if_neg hk] at h
        rw [if_neg hk, ih h]

theorem dget_pd_append_some {l1 l2 : List (Str × PyVal)} {k : Str} {v : PyVal}
    (h : dget (pd l1) k = some v) :
    dget (pd (l1 ++ l2)) k = some v := by
  induction l1 with
  | nil => cases h
  | cons e rest ih =>
      obtain ⟨k1, v1⟩ := e
      rw [List.cons_append, dget_pd_cons]
      rw [dget_pd_cons] at h
      by_cases hk : k1 = k
      · rw [if_pos hk] at h; rw [if_pos hk]; exact h
      · rw [if_neg hk] at h
        rw [if_neg hk, ih h]

theorem base_tcp_none (remarks : Str) (params : Params) (uuid server : Str) (port : Int) :
    dget (pd (vlessBaseList remarks params uuid server port)) (S "tcp") = Option.none := rfl

theorem base_ws_none (remarks : Str) (params : Params) (uuid server : Str) (port : Int) :
    dget (pd (vlessBaseList remarks params uuid server port)) (S "ws") = Option.none := rfl

theorem base_grpc_none (remarks : Str) (params : Params) (uuid server : Str) (port : Int) :
    dget (pd (vlessBaseList remarks params uuid server port)) (S "grpc") = Option.none := rfl

theorem base_tls_none (remarks : Str) (params : Params) (uuid server : Str) (port : Int) :
    dget (pd (vlessBaseList remarks params uuid server port)) (S "tls") = Option.none := rfl

theorem base_reality_none (remarks : Str) (params : Params) (uuid server : Str) (port : Int) :
    dget (pd (vlessBaseList remarks params uuid server port)) (S "reality") = Option.none := rfl

theorem base_security (remarks : Str) (params : Params) (uuid server : Str) (port : Int) :
    dget (pd (vlessBaseList remarks params uuid server port)) (S "security") =
      some (.str (paramsGetD params (S "security") (S "none"))) := rfl

theorem base_network (remarks : Str) (params : Params) (uuid server : Str) (port : Int) :
    dget (pd (vlessBaseList remarks params uuid server port)) (S "network") =
      some (.str (paramsGetD params (S "network") (S "tcp"))) := rfl

theorem netList_other_key (params : Params) (k : Str)
    (h1 : k ≠ S "tcp") (h2 : k ≠ S "ws") (h3 : k ≠ S "grpc") :
    dget (pd (vlessNetList params)) k = Option.none := by
  unfold vlessNetList
  split_ifs with ha hb hc
  · rw [dget_pd_cons, if_neg (fun h => h1 h.symm)]; rfl
  · rw [dget_pd_cons, if_neg (fun h => h2 h.symm)]; rfl
  · rw [dget_pd_cons, if_neg (fun h => h3 h.symm)]; rfl
  · rfl

theorem secList_other_key (params : Params) (server : Str) (k : Str)
    (h1 : k ≠ S "tls") (h2 : k ≠ S "reality") :
    dget (pd (vlessSecList params server)) k = Option.none := by
  unfold vlessSecList
  split_ifs with ha hb
  · rw [dget_pd_cons, if_neg (fun h => h1 h.symm)]
    rw [show pd [(S "reality", PyVal.dict (pd [
      (S "public_key", PyVal.str (paramsGetD params (S "pbk") [])),
      (S "short_id", PyVal.str (paramsGetD params (S "sid") [])),
      (S "spider_x", PyVal.str (paramsGetD params (S "spx") []))]))] =
      pd ((S "reality", PyVal.dict (pd [
      (S "public_key", PyVal.str (paramsGetD params (S "pbk") [])),
      (S "short_id", PyVal.str (paramsGetD params (S "sid") [])),
      (S "spider_x", PyVal.str (paramsGetD params (S "spx") []))])) :: []) from rfl,
      dget_pd_cons, if_neg (fun h => h2 h.symm)]
    rfl
  · rw [dget_pd_cons, if_neg (fun h => h1 h.symm)]; rfl
  · rfl

theorem splitOnce_of_not_mem {sep : Char} {s : Str} (h : sep ∉ s) :
    splitOnce sep s = Option.none := by
  induction s with
  | nil => rfl
  | cons c rest ih =>
      simp only [splitOnce]
      by_cases e : c = sep
      · subst e; exact absurd (List.mem_cons_self c rest) h
      · rw [if_neg e, ih (fun m => h (List.mem_cons_of_mem c m))]
        rfl

theorem splitOnce_first {sep : Char} {u rest : Str} (h : sep ∉ u) :
    splitOnce sep (u ++ sep :: rest) = some (u, rest) := by
  induction u with
  | nil => simp [splitOnce]
  | cons c t ih =>
      rw [List.cons_append]
      simp only [splitOnce]
      by_cases e : c = sep
      · subst e; exact absurd (List.mem_cons_self c t) h
      · rw [if_neg e, ih (fun m => h (List.mem_cons_of_mem c m))]
        rfl

theorem rsplitOnce_of_not_mem {sep : Char} {s : Str} (h : sep ∉ s) :
    rsplitOnce sep s = Option.none := by
  unfold rsplitOnce
  rw [splitOnce_of_not_mem (fun m => h (List.mem_reverse.mp m))]
  rfl

theorem rsplitOnce_last {sep : Char} {hd tl : Str} (h : sep ∉ tl) :
    rsplitOnce sep (hd ++ sep :: tl) = some (hd, tl) := by
  unfold rsplitOnce
  have : (hd ++ sep :: tl).reverse = tl.reverse ++ sep :: hd.reverse := by
    simp [List.reverse_append]
  rw [this, splitOnce_first (fun m => h (List.mem_reverse.mp m))]
  simp

theorem parse_vless_ok_inv {url : Str} {cfg : PyDict}
    (h : V2rayParser.parse_vless url = .ok cfg) :
    ∃ remarks params uuid server port,
      cfg = V2rayParser.vlessConfigOf remarks params uuid server port := by
  simp only [V2rayParser.parse_vless] at h
  cases ha : V2rayParser.parse_authority
      (V2rayParser.querySplit (V2rayParser.fragmentSplit (replaceVlessScheme url)).1).1 with
  | error e => rw [ha] at h; cases h
  | ok t =>
      rw [ha] at h
      simp only [Except.map] at h
      cases h
      exact ⟨_, _, _, _, _, rfl⟩

theorem dget_pd_cons_eq (k : Str) (v1 : PyVal) (l : List (Str × PyVal)) :
    dget (pd ((k, v1) :: l)) k = some v1 := by
  rw [dget_pd_cons, if_pos rfl]

theorem dget_pd_cons_ne {k1 k : Str} (hne : k1 ≠ k) (v1 : PyVal) (l : List (Str × PyVal)) :
    dget (pd ((k1, v1) :: l)) k = dget (pd l) k := by
  rw [dget_pd_cons, if_neg hne]

theorem listModify_get_eq {l : List α} {i : Nat} {f : α → α} {x : α}
    (h : l.get? i = some x) : (listModify l i f).get? i = some (f x) := by
  induction l generalizing i with
  | nil => cases h
  | cons a t ih =>
      cases i with
      | zero => cases h; rfl
      | succ j => exact ih h

theorem listModify_get_ne {l : List α} {i j : Nat} {f : α → α} (h : j ≠ i) :
    (listModify l i f).get? j = l.get? j := by
  induction l generalizing i j with
  | nil => rfl
  | cons a t ih =>
      cases i with
      | zero =>
          cases j with
          | zero => exact absurd rfl h
          | succ j' => rfl
      | succ i' =>
          cases j with
          | zero => rfl
          | succ j' => exact ih (fun e => h (congrArg Nat.succ e))

theorem listModify_length (l : List α) (i : Nat) (f : α → α) :
    (listModify l i f).length = l.length := by
  induction l generalizing i with
  | nil => rfl
  | cons a t ih =>
      cases i with
      | zero => rfl
      | succ j => exact congrArg Nat.succ (ih j)

/-! ## Claim theorems -/

set_option maxRecDepth 100000 in
/-- **C1** (code bug): decoding the spec's concrete URI yields display name
`"MyServer"`, host `"example.com"` (stored under the source's misspelled
key `"serverr"`; no `"server"` key exists), port `443`, security `"tls"`
and ALPN `["h2", "http/1.1"]` — but passing that parsed endpoint to the
decoder-path assembler raises `KeyError('server')` instead of producing a
document, because `_build_vless` reads `config["server"]` (and
`config["encryption"]`) which `_parse_vless` never writes. -/
theorem c1_decode_ok_assembly_keyerror :
    ∃ cfg, V2rayParser.parse_vless uriC1 = .ok cfg ∧
      dget cfg (S "name") = some (.str (S "MyServer")) ∧
      dget cfg (S "serverr") = some (.str (S "example.com")) ∧
      dget cfg (S "server") = Option.none ∧
      dget cfg (S "port") = some (.int 443) ∧
      dget cfg (S "security") = some (.str (S "tls")) ∧
      dget cfg (S "tls") = some (.dict (pd [
        (S "server_name", .str (S "cdn.example.com")),
        (S "fingerprint", .str (S "chrome")),
        (S "alpn", .list (pl [.str (S "h2"), .str (S "http/1.1")]))])) ∧
      V2rayParser.build_config cfg 1080 = .error (.keyError (S "server")) :=
  ⟨_, rfl, rfl, rfl, rfl, rfl, rfl, rfl, rfl⟩

set_option maxRecDepth 100000 in
/-- **C2** (counterexample): the URI `vless://u@h:80?network=quic` is
accepted by the decoder, yet none of the three transport sub-records
(`tcp`, `ws`, `grpc`) is populated — refuting "exactly one transport
sub-settings record populated" for every accepted URI. -/
theorem c2_counterexample_quic :
    ∃ cfg, V2rayParser.parse_vless uriQuic = .ok cfg ∧
      dget cfg (S "network") = some (.str (S "quic")) ∧
      dget cfg (S "tcp") = Option.none ∧
      dget cfg (S "ws") = Option.none ∧
      dget cfg (S "grpc") = Option.none :=
  ⟨_, rfl, rfl, rfl, rfl, rfl⟩

/-- **C2** (amended): for every URI the decoder accepts, *if* the network
value is one of `"tcp"`, `"ws"`, `"grpc"` (the default being `"tcp"`),
then exactly the matching transport sub-record is populated and the other
two are absent; for any other network value no transport sub-record is
populated at all. -/
theorem c2_transport_records_amended {url : Str} {cfg : PyDict}
    (h : V2rayParser.parse_vless url = .ok cfg) :
    ∃ nw, dget cfg (S "network") = some (.str nw) ∧
      (nw = S "tcp" → (dget cfg (S "tcp")).isSome ∧ dget cfg (S "ws") = Option.none ∧
        dget cfg (S "grpc") = Option.none) ∧
      (nw = S "ws" → (dget cfg (S "ws")).isSome ∧ dget cfg (S "tcp") = Option.none ∧
        dget cfg (S "grpc") = Option.none) ∧
      (nw = S "grpc" → (dget cfg (S "grpc")).isSome ∧ dget cfg (S "tcp") = Option.none ∧
        dget cfg (S "ws") = Option.none) ∧
      (nw ≠ S "tcp" → nw ≠ S "ws" → nw ≠ S "grpc" →
        dget cfg (S "tcp") = Option.none ∧ dget cfg (S "ws") = Option.none ∧
        dget cfg (S "grpc") = Option.none) := by
  obtain ⟨remarks, params, uuid, server, port, rfl⟩ := parse_vless_ok_inv h
  unfold V2rayParser.vlessConfigOf
  rw [List.append_assoc]
  refine ⟨paramsGetD params (S "network") (S "tcp"),
    dget_pd_append_some (base_network remarks params uuid server port), ?_, ?_, ?_, ?_⟩
  · intro hnw
    refine ⟨?_, ?_, ?_⟩
    · rw [dget_pd_append_none (base_tcp_none remarks params uuid server port)]
      simp only [vlessNetList]
      rw [if_pos hnw, List.singleton_append, dget_pd_cons_eq]
      rfl
    · rw [dget_pd_append_none (base_ws_none remarks params uuid server port)]
      simp only [vlessNetList]
      rw [if_pos hnw, List.singleton_append, dget_pd_cons_ne (by decide)]
      exact secList_other_key params server (S "ws") (by decide) (by decide)
    · rw [dget_pd_append_none (base_grpc_none remarks params uuid server port)]
      simp only [vlessNetList]
      rw [if_pos hnw, List.singleton_append, dget_pd_cons_ne (by decide)]
      exact secList_other_key params server (S "grpc") (by decide) (by decide)
  · intro hnw
    have hne : paramsGetD params (S "network") (S "tcp") ≠ S "tcp" := by
      rw [hnw]; decide
    refine ⟨?_, ?_, ?_⟩
    · rw [dget_pd_append_none (base_ws_none remarks params uuid server port)]
      simp only [vlessNetList]
      rw [if_neg hne, if_pos hnw, List.singleton_append, dget_pd_cons_eq]
      rfl
    · rw [dget_pd_append_none (base_tcp_none remarks params uuid server port)]
      simp only [vlessNetList]
      rw [if_neg hne, if_pos hnw, List.singleton_append, dget_pd_cons_ne (by decide)]
      exact secList_other_key params server (S "tcp") (by decide) (by decide)
    · rw [dget_pd_append_none (base_grpc_none remarks params uuid server port)]
      simp only [vlessNetList]
      rw [if_neg hne, if_pos hnw, List.singleton_append, dget_pd_cons_ne (by decide)]
      exact secList_other_key params server (S "grpc") (by decide) (by decide)
  · intro hnw
    have hne1 : paramsGetD params (S "network") (S "tcp") ≠ S "tcp" := by
      rw [hnw]; decide
    have hne2 : paramsGetD params (S "network") (S "tcp") ≠ S "ws" := by
      rw [hnw]; decide
    refine ⟨?_, ?_, ?_⟩
    · rw [dget_pd_append_none (base_grpc_none remarks params uuid server port)]
      simp only [vlessNetList]
      rw [if_neg hne1, if_neg hne2, if_pos hnw, List.singleton_append, dget_pd_cons_eq]
      rfl
    · rw [dget_pd_append_none (base_tcp_none remarks params uuid server port)]
      simp only [vlessNetList]
      rw [if_neg hne1, if_neg hne2, if_pos hnw, List.singleton_append,
        dget_pd_cons_ne (by decide)]
      exact secList_other_key params server (S "tcp") (by decide) (by decide)
    · rw [dget_pd_append_none (base_ws_none remarks params uuid server port)]
      simp only [vlessNetList]
      rw [if_neg hne1, if_neg hne2, if_pos hnw, List.singleton_append,
        dget_pd_cons_ne (by decide)]
      exact secList_other_key params server (S "ws") (by decide) (by decide)
  · intro h1 h2 h3
    have hnil : vlessNetList params = [] := by
      simp only [vlessNetList]
      rw [if_neg h1, if_neg h2, if_neg h3]
    refine ⟨?_, ?_, ?_⟩
    · rw [dget_pd_append_none (base_tcp_none remarks params uuid server port), hnil,
        List.nil_append]
      exact secList_other_key params server (S "tcp") (by decide) (by decide)
    · rw [dget_pd_append_none (base_ws_none remarks params uuid server port), hnil,
        List.nil_append]
      exact secList_other_key params server (S "ws") (by decide) (by decide)
    · rw [dget_pd_append_none (base_grpc_none remarks params uuid server port), hnil,
        List.nil_append]
      exact secList_other_key params server (S "grpc") (by decide) (by decide)

set_option maxRecDepth 100000 in
/-- Witness for the amended C2 theorem at the URI of the counterexample:
its network value `"quic"` is outside the tcp/ws/grpc set, so no transport
sub-record is populated. -/
theorem c2_transport_records_amended_witness :
    ∃ nw, dget (V2rayParser.vlessConfigOf (S "VLESS")
        (paramsOfList (parse_qsl (S "network=quic"))) (S "u") (S "h") 80)
        (S "network") = some (.str nw) ∧
      (nw = S "tcp" → False) ∧ (nw = S "ws" → False) ∧ (nw = S "grpc" → False) ∧
      dget (V2rayParser.vlessConfigOf (S "VLESS")
        (paramsOfList (parse_qsl (S "network=quic"))) (S "u") (S "h") 80)
        (S "tcp") = Option.none := by
  obtain ⟨nw, hn, _, _, _, hrest⟩ := @c2_transport_records_amended uriQuic _ rfl
  have hq : nw = S "quic" := by
    have := hn.symm.trans (by rfl :
      dget (V2rayParser.vlessConfigOf (S "VLESS")
        (paramsOfList (parse_qsl (S "network=quic"))) (S "u") (S "h") 80)
        (S "network") = some (.str (S "quic")))
    cases this
    rfl
  refine ⟨nw, hn, ?_, ?_, ?_, ?_⟩
  · intro he; rw [hq] at he; cases he
  · intro he; rw [hq] at he; cases he
  · intro he; rw [hq] at he; cases he
  · exact (hrest (by rw [hq]; decide) (by rw [hq]; decide) (by rw [hq]; decide)).1

/-- **C3**: assembling in the manual-builder path with an empty inbound
list (or a nonempty inbound list and an empty outbound list) fails with
the `IncompleteConfiguration` kind — the `ValueError` raised by
`validate` before the document dictionary is built.  `build_config`
returns only this error and no document; the builder state is read, never
written, by the method (the embedded function takes the state and returns
only the result). -/
theorem c3_empty_lists_incomplete (c : ClientConfig) :
    (c.inbound_configs = [] →
      ClientConfig.build_config c =
        .error (.valueError "Inbound configuration is not set")) ∧
    (c.inbound_configs ≠ [] → c.outbound_configs = [] →
      ClientConfig.build_config c =
        .error (.valueError "Outbound configuration is not set")) := by
  constructor
  · intro h
    have hv : c.validate = .error (.valueError "Inbound configuration is not set") := by
      unfold ClientConfig.validate
      rw [h]
    unfold ClientConfig.build_config
    rw [hv]
  · intro h1 h2
    obtain ⟨ib, rest, hib⟩ : ∃ ib rest, c.inbound_configs = ib :: rest := by
      cases hc : c.inbound_configs with
      | nil => exact absurd hc h1
      | cons a b => exact ⟨a, b, rfl⟩
    have hv : c.validate = .error (.valueError "Outbound configuration is not set") := by
      unfold ClientConfig.validate
      rw [hib, h2]
    unfold ClientConfig.build_config
    rw [hv]

/-- Witness for C3 at the empty builder state. -/
theorem c3_empty_lists_incomplete_witness :
    ClientConfig.build_config emptyClientConfig =
      .error (.valueError "Inbound configuration is not set") :=
  (c3_empty_lists_incomplete emptyClientConfig).1 rfl

/-- **C4** (code bug): the port check of `__post_init__`, as written,
succeeds exactly for `1024 < p < 65535` and otherwise raises the
`InvalidDescriptor` `ValueError` — but in the source no construction can
ever succeed, because the dataclass field default `settings = {}`
(line 39) is an unhashable mutable default, which `@dataclass` rejects
with `ValueError` when the class object is created, so importing
`config.py` fails before any descriptor exists. -/
theorem c4_port_range_validation :
    pyUnhashable inboundSettingsDefault = true ∧
    ∀ (p : Int) (pr : InboundProtocol) (l : Str) (st : PyDict),
      ((∃ ic, InboundConfig.make p pr l st = .ok ic) ↔ (1024 < p ∧ p < 65535)) ∧
      (InboundConfig.make p pr l st =
          .error (.valueError "Port must be between 1025 and 65534") ↔
        ¬(1024 < p ∧ p < 65535)) := by
  refine ⟨rfl, fun p pr l st => ?_⟩
  by_cases h : 1024 < p ∧ p < 65535
  · refine ⟨⟨fun _ => h, fun _ => ⟨⟨p, pr, l, st⟩, ?_⟩⟩, ⟨fun he => ?_, fun hn => absurd h hn⟩⟩
    · unfold InboundConfig.make
      rw [if_pos h]
    · unfold InboundConfig.make at he
      rw [if_pos h] at he
      cases he
  · refine ⟨⟨fun hex => ?_, fun hh => absurd hh h⟩, ⟨fun _ => h, fun _ => ?_⟩⟩
    · obtain ⟨ic, hic⟩ := hex
      unfold InboundConfig.make at hic
      rw [if_neg h] at hic
      cases hic
    · unfold InboundConfig.make
      rw [if_neg h]

/-- **C9**: the authority split of `_parse_vless` fails with the
`MalformedEndpoint` kind (`ValueError`) when `@` is missing, when `:` is
missing in the part after the first `@`, or when the port text does not
parse as an integer; on success the user identifier is everything before
the *first* `@` and the host/port are split at the *last* `:`.  The last
conjunct ties this to decoding: `parse_vless` fails exactly when the
authority split of its server part fails. -/
theorem c9_authority_split_malformed :
    (∀ sp : Str, '@' ∉ sp →
      V2rayParser.parse_authority sp =
        .error (.valueError "not enough values to unpack (expected 2, got 1)")) ∧
    (∀ u rest : Str, '@' ∉ u → ':' ∉ rest →
      V2rayParser.parse_authority (u ++ '@' :: rest) =
        .error (.valueError "not enough values to unpack (expected 2, got 1)")) ∧
    (∀ u hst p : Str, '@' ∉ u → ':' ∉ p → pyInt p = Option.none →
      V2rayParser.parse_authority (u ++ '@' :: (hst ++ ':' :: p)) =
        .error (.valueError "invalid literal for int() with base 10")) ∧
    (∀ (u hst p : Str) (n : Int), '@' ∉ u → ':' ∉ p → pyInt p = some n →
      V2rayParser.parse_authority (u ++ '@' :: (hst ++ ':' :: p)) = .ok (u, hst, n)) ∧
    (∀ url : Str,
      ((∃ e, V2rayParser.parse_vless url = .error e) ↔
       (∃ e, V2rayParser.parse_authority
          (V2rayParser.querySplit
            (V2rayParser.fragmentSplit (replaceVlessScheme url)).1).1 = .error e))) := by
  refine ⟨?_, ?_, ?_, ?_, ?_⟩
  · intro sp h
    simp only [V2rayParser.parse_authority, splitOnce_of_not_mem h]
  · intro u rest hu hrest
    simp only [V2rayParser.parse_authority, splitOnce_first hu,
      rsplitOnce_of_not_mem hrest]
  · intro u hst p hu hp hint
    simp only [V2rayParser.parse_authority, splitOnce_first hu,
      rsplitOnce_last hp, hint]
  · intro u hst p n hu hp hint
    simp only [V2rayParser.parse_authority, splitOnce_first hu,
      rsplitOnce_last hp, hint]
  · intro url
    simp only [V2rayParser.parse_vless]
    cases ha : V2rayParser.parse_authority
        (V2rayParser.querySplit (V2rayParser.fragmentSplit (replaceVlessScheme url)).1).1 with
    | error e =>
        simp only [Except.map]
        exact ⟨fun _ => ⟨e, rfl⟩, fun _ => ⟨e, rfl⟩⟩
    | ok t =>
        simp only [Except.map]
        constructor
        · rintro ⟨e, he⟩
          cases he
        · rintro ⟨e, he⟩
          cases he

/-- Witness for C9: a missing `@`, a missing `:`, a non-numeric port, and
one successful split, each at a concrete input. -/
theorem c9_authority_split_malformed_witness :
    V2rayParser.parse_authority (S "nohost") =
      .error (.valueError "not enough values to unpack (expected 2, got 1)") ∧
    V2rayParser.parse_authority (S "uuid@host") =
      .error (.valueError "not enough values to unpack (expected 2, got 1)") ∧
    V2rayParser.parse_authority (S "u@h:xx") =
      .error (.valueError "invalid literal for int() with base 10") ∧
    V2rayParser.parse_authority (S "u@h:443") = .ok (S "u", S "h", 443) :=
  ⟨c9_authority_split_malformed.1 (S "nohost") (by decide),
   c9_authority_split_malformed.2.1 (S "uuid") (S "host") (by decide) (by decide),
   c9_authority_split_malformed.2.2.1 (S "u") (S "h") (S "xx")
     (by decide) (by decide) (by decide),
   c9_authority_split_malformed.2.2.2.1 (S "u") (S "h") (S "443") 443
     (by decide) (by decide) (by decide)⟩

/-- **C10**: over the heap model, `add_inbound` updates the settings of
the very descriptor object the caller passed — in place, through the
reference — appends that same reference (not a copy) to the builder's
inbound list, and changes nothing else: the descriptor's `port`,
`protocol` and `listen` fields, every other heap object, and the rest of
the builder state are untouched. -/
theorem c10_add_inbound_frame (h : Heap) (st : BuilderState) (r : Ref)
    (ic : InboundConfig) (hr : h.objs.get? r = some ic) :
    (ClientConfig.add_inbound h st r).2.inbound_refs = st.inbound_refs ++ [r] ∧
    (ClientConfig.add_inbound h st r).2.outbound_configs = st.outbound_configs ∧
    (ClientConfig.add_inbound h st r).2.log_level = st.log_level ∧
    (ClientConfig.add_inbound h st r).1.objs.get? r = some
      { port := ic.port, protocol := ic.protocol, listen := ic.listen,
        settings := dupdate ic.settings (inboundDefaults ic.protocol ic.listen) } ∧
    (∀ r', r' ≠ r → (ClientConfig.add_inbound h st r).1.objs.get? r' = h.objs.get? r') ∧
    (ClientConfig.add_inbound h st r).1.objs.length = h.objs.length := by
  refine ⟨rfl, rfl, rfl, ?_, ?_, ?_⟩
  · exact listModify_get_eq hr
  · intro r' hne
    exact listModify_get_ne hne
  · exact listModify_length h.objs r applyInboundDefaults

/-- Witness for C10 at a one-object heap holding a SOCKS descriptor. -/
theorem c10_add_inbound_frame_witness :
    (ClientConfig.add_inbound ⟨[sampleInbound]⟩ ⟨[], [], .warning⟩ 0).2.inbound_refs =
      [] ++ [0] ∧
    (ClientConfig.add_inbound ⟨[sampleInbound]⟩ ⟨[], [], .warning⟩ 0).1.objs.get? 0 = some
      { port := sampleInbound.port, protocol := sampleInbound.protocol,
        listen := sampleInbound.listen,
        settings := dupdate sampleInbound.settings
          (inboundDefaults sampleInbound.protocol sampleInbound.listen) } :=
  ⟨(c10_add_inbound_frame ⟨[sampleInbound]⟩ ⟨[], [], .warning⟩ 0 sampleInbound rfl).1,
   (c10_add_inbound_frame ⟨[sampleInbound]⟩ ⟨[], [], .warning⟩ 0 sampleInbound rfl).2.2.2.1⟩

set_option maxRecDepth 100000 in
/-- **C6** (code bug): for every accepted URI the *parsed endpoint* behaves
as claimed — the `tls` security sub-record is present iff the security
value is `"tls"` or `"reality"`, the `reality` sub-record iff it is
`"reality"`, and an unrecognised security value is accepted with no
security sub-record — but the claim's final clause fails: the assembled
outbound for such an endpoint does not exist, because `build_config`
raises `KeyError('server')` on every parsed endpoint (the `"serverr"` /
`"enctyption"` key mismatch), as the concrete `security=foo` input shows. -/
theorem c6_security_records :
    (∀ {url : Str} {cfg : PyDict}, V2rayParser.parse_vless url = .ok cfg →
      ∃ secv, dget cfg (S "security") = some (.str secv) ∧
        ((dget cfg (S "tls")).isSome ↔ (secv = S "tls" ∨ secv = S "reality")) ∧
        ((dget cfg (S "reality")).isSome ↔ secv = S "reality")) ∧
    (∃ cfg, V2rayParser.parse_vless uriSecFoo = .ok cfg ∧
      dget cfg (S "security") = some (.str (S "foo")) ∧
      dget cfg (S "tls") = Option.none ∧
      dget cfg (S "reality") = Option.none ∧
      V2rayParser.build_config cfg 1080 = .error (.keyError (S "server"))) := by
  constructor
  · intro url cfg h
    obtain ⟨remarks, params, uuid, server, port, rfl⟩ := parse_vless_ok_inv h
    unfold V2rayParser.vlessConfigOf
    rw [List.append_assoc]
    refine ⟨paramsGetD params (S "security") (S "none"),
      dget_pd_append_some (base_security remarks params uuid server port), ?_⟩
    rw [dget_pd_append_none (base_tls_none remarks params uuid server port),
        dget_pd_append_none (netList_other_key params (S "tls")
          (by decide) (by decide) (by decide)),
        dget_pd_append_none (base_reality_none remarks params uuid server port),
        dget_pd_append_none (netList_other_key params (S "reality")
          (by decide) (by decide) (by decide))]
    by_cases hs1 : paramsGetD params (S "security") (S "none") = S "tls"
    · have hs2 : paramsGetD params (S "security") (S "none") ≠ S "reality" := by
        rw [hs1]; decide
      constructor
      · unfold vlessSecList
        rw [if_pos (Or.inl hs1), dget_pd_cons_eq]
        exact iff_of_true rfl (Or.inl hs1)
      · unfold vlessSecList
        rw [if_pos (Or.inl hs1), dget_pd_cons_ne (by decide), if_neg hs2]
        exact iff_of_false (by simp [pd, dget]) hs2
    · by_cases hs2 : paramsGetD params (S "security") (S "none") = S "reality"
      · constructor
        · unfold vlessSecList
          rw [if_pos (Or.inr hs2), dget_pd_cons_eq]
          exact iff_of_true rfl (Or.inr hs2)
        · unfold vlessSecList
          rw [if_pos (Or.inr hs2), dget_pd_cons_ne (by decide), if_pos hs2,
            dget_pd_cons_eq]
          exact iff_of_true rfl hs2
      · have hnone : vlessSecList params server = [] := by
          unfold vlessSecList
          rw [if_neg (fun hor => hor.elim hs1 hs2)]
        rw [hnone]
        constructor
        · exact iff_of_false (by simp [pd, dget]) (fun hor => hor.elim hs1 hs2)
        · exact iff_of_false (by simp [pd, dget]) hs2
  · exact ⟨_, rfl, rfl, rfl, rfl, rfl⟩

set_option maxRecDepth 100000 in
/-- Witness for the security-record invariant of C6 at the concrete
`security=foo` input. -/
theorem c6_security_records_witness :
    ∃ secv, dget (V2rayParser.vlessConfigOf (S "VLESS")
        (paramsOfList (parse_qsl (S "security=foo"))) (S "u") (S "h") 1)
        (S "security") = some (.str secv) ∧
      ((dget (V2rayParser.vlessConfigOf (S "VLESS")
          (paramsOfList (parse_qsl (S "security=foo"))) (S "u") (S "h") 1)
          (S "tls")).isSome ↔ (secv = S "tls" ∨ secv = S "reality")) ∧
      ((dget (V2rayParser.vlessConfigOf (S "VLESS")
          (paramsOfList (parse_qsl (S "security=foo"))) (S "u") (S "h") 1)
          (S "reality")).isSome ↔ secv = S "reality") := by
  exact c6_security_records.1
    (show V2rayParser.parse_vless uriSecFoo = Except.ok _ from rfl)

theorem buildSec_cases (cfg : PyDict) (secv sv : PyVal) (tlse rle : PyDict)
    (h8 : dgetD cfg (S "tls") (.dict .nil) = .dict tlse)
    (h9 : dgetD cfg (S "reality") (.dict .nil) = .dict rle) :
    ∃ sec, V2rayParser.buildSec cfg secv sv = .ok sec ∧
      dget (pd sec) (S "tcpSettings") = Option.none ∧
      dget (pd sec) (S "grpcSettings") = Option.none ∧
      dget (pd sec) (S "wsSettings") = Option.none := by
  by_cases hs1 : pvEqStr secv (S "tls") = true
  · refine ⟨[(S "tlsSettings", PyVal.dict (pd [
        (S "serverName", dgetD tlse (S "server_name") sv),
        (S "fingerprint", dgetD tlse (S "fingerprint") (.str (S "chrome"))),
        (S "alpn", dgetD tlse (S "alpn") (.list .nil))]))], ?_, rfl, rfl, rfl⟩
    unfold V2rayParser.buildSec
    rw [if_pos (Or.inl hs1), h8]
    simp only [asDict]
    rw [if_pos hs1]
  · by_cases hs2 : pvEqStr secv (S "reality") = true
    · refine ⟨[(S "realitySettings", PyVal.dict (pd [
          (S "serverName", dgetD tlse (S "server_name") sv),
          (S "fingerprint", dgetD tlse (S "fingerprint") (.str (S "chrome"))),
          (S "publicKey", dgetD rle (S "public_key") (.str [])),
          (S "shortId", dgetD rle (S "short_id") (.str [])),
          (S "spiderX", dgetD rle (S "spider_x") (.str []))]))], ?_, rfl, rfl, rfl⟩
      unfold V2rayParser.buildSec
      rw [if_pos (Or.inr hs2), h8]
      simp only [asDict]
      rw [if_neg hs1, if_pos hs2, h9]
    · refine ⟨[], ?_, rfl, rfl, rfl⟩
      unfold V2rayParser.buildSec
      rw [if_neg (fun hor => hor.elim hs1 hs2)]

theorem build_vless_ws_shape (cfg : PyDict) (sv pv uv ev secv : PyVal)
    (wse tlse rle : PyDict)
    (h1 : dget cfg (S "server") = some sv) (h2 : dget cfg (S "port") = some pv)
    (h3 : dget cfg (S "uuid") = some uv) (h4 : dget cfg (S "encryption") = some ev)
    (h5 : dget cfg (S "network") = some (.str (S "ws")))
    (h6 : dget cfg (S "security") = some secv)
    (h7 : dgetD cfg (S "ws") (.dict .nil) = .dict wse)
    (h8 : dgetD cfg (S "tls") (.dict .nil) = .dict tlse)
    (h9 : dgetD cfg (S "reality") (.dict .nil) = .dict rle) :
    ∃ sec, V2rayParser.build_vless cfg = .ok (V2rayParser.mkOutbound sv pv uv ev
        (dgetD cfg (S "flow") (.str [])) (.str (S "ws")) secv
        [(S "wsSettings", PyVal.dict (pd [
          (S "path", dgetD wse (S "path") (.str (S "/"))),
          (S "headers", .dict (match dget wse (S "host") with
            | some h => if pyTruthy h then pd [(S "Host", h)] else .nil
            | Option.none => .nil))]))] sec) ∧
      dget (pd sec) (S "tcpSettings") = Option.none ∧
      dget (pd sec) (S "grpcSettings") = Option.none ∧
      dget (pd sec) (S "wsSettings") = Option.none := by
  have hds : dindex cfg (S "server") = .ok sv := by unfold dindex; rw [h1]
  have hdp : dindex cfg (S "port") = .ok pv := by unfold dindex; rw [h2]
  have hdu : dindex cfg (S "uuid") = .ok uv := by unfold dindex; rw [h3]
  have hde : dindex cfg (S "encryption") = .ok ev := by unfold dindex; rw [h4]
  have hdn : dindex cfg (S "network") = .ok (.str (S "ws")) := by unfold dindex; rw [h5]
  have hdsc : dindex cfg (S "security") = .ok secv := by unfold dindex; rw [h6]
  have hnet : V2rayParser.buildNet cfg (.str (S "ws")) = .ok [(S "wsSettings",
      PyVal.dict (pd [
        (S "path", dgetD wse (S "path") (.str (S "/"))),
        (S "headers", .dict (match dget wse (S "host") with
          | some h => if pyTruthy h then pd [(S "Host", h)] else .nil
          | Option.none => .nil))]))] := by
    unfold V2rayParser.buildNet
    rw [if_neg (by decide), if_pos (by decide), h7]
    rfl
  obtain ⟨sec, hsec, hsec1, hsec2, hsec3⟩ := buildSec_cases cfg secv sv tlse rle h8 h9
  refine ⟨sec, ?_, hsec1, hsec2, hsec3⟩
  simp only [V2rayParser.build_vless, hds, hdp, hdu, hde, hdn, hdsc, hnet, hsec]

theorem exGet_ok (v : PyVal) (ks : List Str) : exGet (.ok v) ks = vGetPath v ks := rfl

theorem vGetPath_dict_cons (d : PyDict) (k : Str) (ks : List Str) :
    vGetPath (.dict d) (k :: ks) =
      (match dget d k with
       | some w => vGetPath w ks
       | Option.none => Option.none) := rfl

theorem mkOutbound_stream_path (sv pv uv ev fl nw secv : PyVal)
    (net sec : List (Str × PyVal)) (ks : List Str) :
    vGetPath (V2rayParser.mkOutbound sv pv uv ev fl nw secv net sec)
      (S "streamSettings" :: ks) =
    vGetPath (.dict (pd (([(S "network", nw), (S "security", secv)] ++ net) ++ sec))) ks := rfl

theorem build_vless_tcp_shape (cfg : PyDict) (sv pv uv ev secv : PyVal)
    (tce tlse rle : PyDict)
    (h1 : dget cfg (S "server") = some sv) (h2 : dget cfg (S "port") = some pv)
    (h3 : dget cfg (S "uuid") = some uv) (h4 : dget cfg (S "encryption") = some ev)
    (h5 : dget cfg (S "network") = some (.str (S "tcp")))
    (h6 : dget cfg (S "security") = some secv)
    (h7 : dgetD cfg (S "tcp") (.dict .nil) = .dict tce)
    (h8 : dgetD cfg (S "tls") (.dict .nil) = .dict tlse)
    (h9 : dgetD cfg (S "reality") (.dict .nil) = .dict rle) :
    ∃ sec, V2rayParser.build_vless cfg = .ok (V2rayParser.mkOutbound sv pv uv ev
        (dgetD cfg (S "flow") (.str [])) (.str (S "tcp")) secv
        [(S "tcpSettings", PyVal.dict (pd [(S "header", .dict (pd [
          (S "type", dgetD tce (S "header_type") (.str (S "none")))]))]))] sec) ∧
      dget (pd sec) (S "tcpSettings") = Option.none ∧
      dget (pd sec) (S "grpcSettings") = Option.none ∧
      dget (pd sec) (S "wsSettings") = Option.none := by
  have hds : dindex cfg (S "server") = .ok sv := by unfold dindex; rw [h1]
  have hdp : dindex cfg (S "port") = .ok pv := by unfold dindex; rw [h2]
  have hdu : dindex cfg (S "uuid") = .ok uv := by unfold dindex; rw [h3]
  have hde : dindex cfg (S "encryption") = .ok ev := by unfold dindex; rw [h4]
  have hdn : dindex cfg (S "network") = .ok (.str (S "tcp")) := by unfold dindex; rw [h5]
  have hdsc : dindex cfg (S "security") = .ok secv := by unfold dindex; rw [h6]
  have hnet : V2rayParser.buildNet cfg (.str (S "tcp")) = .ok [(S "tcpSettings",
      PyVal.dict (pd [(S "header", .dict (pd [
        (S "type", dgetD tce (S "header_type") (.str (S "none")))]))]))] := by
    unfold V2rayParser.buildNet
    rw [if_pos (by decide), h7]
    rfl
  obtain ⟨sec, hsec, hsec1, hsec2, hsec3⟩ := buildSec_cases cfg secv sv tlse rle h8 h9
  refine ⟨sec, ?_, hsec1, hsec2, hsec3⟩
  simp only [V2rayParser.build_vless, hds, hdp, hdu, hde, hdn, hdsc, hnet, hsec]

theorem build_vless_grpc_shape (cfg : PyDict) (sv pv uv ev secv : PyVal)
    (gre tlse rle : PyDict)
    (h1 : dget cfg (S "server") = some sv) (h2 : dget cfg (S "port") = some pv)
    (h3 : dget cfg (S "uuid") = some uv) (h4 : dget cfg (S "encryption") = some ev)
    (h5 : dget cfg (S "network") = some (.str (S "grpc")))
    (h6 : dget cfg (S "security") = some secv)
    (h7 : dgetD cfg (S "grpc") (.dict .nil) = .dict gre)
    (h8 : dgetD cfg (S "tls") (.dict .nil) = .dict tlse)
    (h9 : dgetD cfg (S "reality") (.dict .nil) = .dict rle) :
    ∃ sec, V2rayParser.build_vless cfg = .ok (V2rayParser.mkOutbound sv pv uv ev
        (dgetD cfg (S "flow") (.str [])) (.str (S "grpc")) secv
        [(S "grpcSettings", PyVal.dict (pd [
          (S "serviceName", dgetD gre (S "service_name") (.str []))]))] sec) ∧
      dget (pd sec) (S "tcpSettings") = Option.none ∧
      dget (pd sec) (S "grpcSettings") = Option.none ∧
      dget (pd sec) (S "wsSettings") = Option.none := by
  have hds : dindex cfg (S "server") = .ok sv := by unfold dindex; rw [h1]
  have hdp : dindex cfg (S "port") = .ok pv := by unfold dindex; rw [h2]
  have hdu : dindex cfg (S "uuid") = .ok uv := by unfold dindex; rw [h3]
  have hde : dindex cfg (S "encryption") = .ok ev := by unfold dindex; rw [h4]
  have hdn : dindex cfg (S "network") = .ok (.str (S "grpc")) := by unfold dindex; rw [h5]
  have hdsc : dindex cfg (S "security") = .ok secv := by unfold dindex; rw [h6]
  have hnet : V2rayParser.buildNet cfg (.str (S "grpc")) = .ok [(S "grpcSettings",
      PyVal.dict (pd [(S "serviceName", dgetD gre (S "service_name") (.str []))]))] := by
    unfold V2rayParser.buildNet
    rw [if_neg (by decide), if_neg (by decide), if_pos (by decide), h7]
    rfl
  obtain ⟨sec, hsec, hsec1, hsec2, hsec3⟩ := buildSec_cases cfg secv sv tlse rle h8 h9
  refine ⟨sec, ?_, hsec1, hsec2, hsec3⟩
  simp only [V2rayParser.build_vless, hds, hdp, hdu, hde, hdn, hdsc, hnet, hsec]

set_option maxRecDepth 100000 in
/-- **C7** (code bug): the transport-mapping rules of `_build_vless` hold
for every configuration dictionary carrying the keys the function reads
(the hard lookups `server`/`port`/`uuid`/`encryption`/`network`/
`security`, and dict-valued transport/security entries where present):
with network `"ws"` the outbound's `wsSettings` carries the supplied path
(or `"/"` when none was supplied) and a `Host` header entry exactly when a
truthy host value was supplied — otherwise the header map is empty, with
no empty `Host` entry; with network `"tcp"` it carries a header type
defaulting to `"none"`; with network `"grpc"` a service name defaulting to
the empty string; and in each case the other two transport blocks are
absent.  But no *parsed endpoint* ever carries those keys: `_parse_vless`
writes the host under `"serverr"`, never `"server"`, so the claim's
subject — the assembled outbound of a parsed WebSocket endpoint — does
not exist.  The final conjunct shows it on a concrete WebSocket URI: the
decode succeeds with network `"ws"` and no `"server"` key, and assembling
that very endpoint raises `KeyError('server')` instead of producing an
outbound with `wsSettings`. -/
theorem c7_transport_mapping :
    (∀ (cfg : PyDict) (sv pv uv ev secv : PyVal) (wse tlse rle : PyDict),
      dget cfg (S "server") = some sv → dget cfg (S "port") = some pv →
      dget cfg (S "uuid") = some uv → dget cfg (S "encryption") = some ev →
      dget cfg (S "network") = some (.str (S "ws")) →
      dget cfg (S "security") = some secv →
      dgetD cfg (S "ws") (.dict .nil) = .dict wse →
      dgetD cfg (S "tls") (.dict .nil) = .dict tlse →
      dgetD cfg (S "reality") (.dict .nil) = .dict rle →
      (∀ p', dget wse (S "path") = some p' →
        exGet (V2rayParser.build_vless cfg)
          [S "streamSettings", S "wsSettings", S "path"] = some p') ∧
      (dget wse (S "path") = Option.none →
        exGet (V2rayParser.build_vless cfg)
          [S "streamSettings", S "wsSettings", S "path"] = some (.str (S "/"))) ∧
      (∀ hv, dget wse (S "host") = some hv → pyTruthy hv = true →
        exGet (V2rayParser.build_vless cfg)
          [S "streamSettings", S "wsSettings", S "headers"] =
          some (.dict (pd [(S "Host", hv)]))) ∧
      (∀ hv, dget wse (S "host") = some hv → pyTruthy hv = false →
        exGet (V2rayParser.build_vless cfg)
          [S "streamSettings", S "wsSettings", S "headers"] = some (.dict .nil)) ∧
      (dget wse (S "host") = Option.none →
        exGet (V2rayParser.build_vless cfg)
          [S "streamSettings", S "wsSettings", S "headers"] = some (.dict .nil)) ∧
      exGet (V2rayParser.build_vless cfg)
        [S "streamSettings", S "tcpSettings"] = Option.none ∧
      exGet (V2rayParser.build_vless cfg)
        [S "streamSettings", S "grpcSettings"] = Option.none) ∧
    (∀ (cfg : PyDict) (sv pv uv ev secv : PyVal) (tce tlse rle : PyDict),
      dget cfg (S "server") = some sv → dget cfg (S "port") = some pv →
      dget cfg (S "uuid") = some uv → dget cfg (S "encryption") = some ev →
      dget cfg (S "network") = some (.str (S "tcp")) →
      dget cfg (S "security") = some secv →
      dgetD cfg (S "tcp") (.dict .nil) = .dict tce →
      dgetD cfg (S "tls") (.dict .nil) = .dict tlse →
      dgetD cfg (S "reality") (.dict .nil) = .dict rle →
      (∀ t, dget tce (S "header_type") = some t →
        exGet (V2rayParser.build_vless cfg)
          [S "streamSettings", S "tcpSettings", S "header", S "type"] = some t) ∧
      (dget tce (S "header_type") = Option.none →
        exGet (V2rayParser.build_vless cfg)
          [S "streamSettings", S "tcpSettings", S "header", S "type"] =
          some (.str (S "none"))) ∧
      exGet (V2rayParser.build_vless cfg)
        [S "streamSettings", S "wsSettings"] = Option.none ∧
      exGet (V2rayParser.build_vless cfg)
        [S "streamSettings", S "grpcSettings"] = Option.none) ∧
    (∀ (cfg : PyDict) (sv pv uv ev secv : PyVal) (gre tlse rle : PyDict),
      dget cfg (S "server") = some sv → dget cfg (S "port") = some pv →
      dget cfg (S "uuid") = some uv → dget cfg (S "encryption") = some ev →
      dget cfg (S "network") = some (.str (S "grpc")) →
      dget cfg (S "security") = some secv →
      dgetD cfg (S "grpc") (.dict .nil) = .dict gre →
      dgetD cfg (S "tls") (.dict .nil) = .dict tlse →
      dgetD cfg (S "reality") (.dict .nil) = .dict rle →
      (∀ t, dget gre (S "service_name") = some t →
        exGet (V2rayParser.build_vless cfg)
          [S "streamSettings", S "grpcSettings", S "serviceName"] = some t) ∧
      (dget gre (S "service_name") = Option.none →
        exGet (V2rayParser.build_vless cfg)
          [S "streamSettings", S "grpcSettings", S "serviceName"] = some (.str [])) ∧
      exGet (V2rayParser.build_vless cfg)
        [S "streamSettings", S "wsSettings"] = Option.none ∧
      exGet (V2rayParser.build_vless cfg)
        [S "streamSettings", S "tcpSettings"] = Option.none) ∧
    (∃ cfg, V2rayParser.parse_vless uriWs = .ok cfg ∧
      dget cfg (S "network") = some (.str (S "ws")) ∧
      dget cfg (S "server") = Option.none ∧
      V2rayParser.build_vless cfg = .error (.keyError (S "server"))) := by
  refine ⟨?_, ?_, ?_, ?_⟩
  · intro cfg sv pv uv ev secv wse tlse rle h1 h2 h3 h4 h5 h6 h7 h8 h9
    obtain ⟨sec, hb, hs1, hs2, hs3⟩ :=
      build_vless_ws_shape cfg sv pv uv ev secv wse tlse rle h1 h2 h3 h4 h5 h6 h7 h8 h9
    have hpath : exGet (V2rayParser.build_vless cfg)
        [S "streamSettings", S "wsSettings", S "path"] =
        some (dgetD wse (S "path") (.str (S "/"))) := by
      rw [hb, exGet_ok, mkOutbound_stream_path, vGetPath_dict_cons,
        @dget_pd_append_some _ sec _ _ (by rfl)]
      rfl
    have hhdr : exGet (V2rayParser.build_vless cfg)
        [S "streamSettings", S "wsSettings", S "headers"] =
        some (.dict (match dget wse (S "host") with
          | some h => if pyTruthy h then pd [(S "Host", h)] else .nil
          | Option.none => .nil)) := by
      rw [hb, exGet_ok, mkOutbound_stream_path, vGetPath_dict_cons,
        @dget_pd_append_some _ sec _ _ (by rfl)]
      rfl
    refine ⟨?_, ?_, ?_, ?_, ?_, ?_, ?_⟩
    · intro p' hp
      rw [hpath]
      simp [dgetD, hp]
    · intro hp
      rw [hpath]
      simp [dgetD, hp]
    · intro hv hh htr
      rw [hhdr, hh]
      simp [htr]
    · intro hv hh htr
      rw [hhdr, hh]
      simp [htr]
    · intro hh
      rw [hhdr, hh]
    · rw [hb, exGet_ok, mkOutbound_stream_path, vGetPath_dict_cons,
        @dget_pd_append_none _ sec _ (by rfl), hs1]
    · rw [hb, exGet_ok, mkOutbound_stream_path, vGetPath_dict_cons,
        @dget_pd_append_none _ sec _ (by rfl), hs2]
  · intro cfg sv pv uv ev secv tce tlse rle h1 h2 h3 h4 h5 h6 h7 h8 h9
    obtain ⟨sec, hb, hs1, hs2, hs3⟩ :=
      build_vless_tcp_shape cfg sv pv uv ev secv tce tlse rle h1 h2 h3 h4 h5 h6 h7 h8 h9
    have htyp : exGet (V2rayParser.build_vless cfg)
        [S "streamSettings", S "tcpSettings", S "header", S "type"] =
        some (dgetD tce (S "header_type") (.str (S "none"))) := by
      rw [hb, exGet_ok, mkOutbound_stream_path, vGetPath_dict_cons,
        @dget_pd_append_some _ sec _ _ (by rfl)]
      rfl
    refine ⟨?_, ?_, ?_, ?_⟩
    · intro t ht
      rw [htyp]
      simp [dgetD, ht]
    · intro ht
      rw [htyp]
      simp [dgetD, ht]
    · rw [hb, exGet_ok, mkOutbound_stream_path, vGetPath_dict_cons,
        @dget_pd_append_none _ sec _ (by rfl), hs3]
    · rw [hb, exGet_ok, mkOutbound_stream_path, vGetPath_dict_cons,
        @dget_pd_append_none _ sec _ (by rfl), hs2]
  · intro cfg sv pv uv ev secv gre tlse rle h1 h2 h3 h4 h5 h6 h7 h8 h9
    obtain ⟨sec, hb, hs1, hs2, hs3⟩ :=
      build_vless_grpc_shape cfg sv pv uv ev secv gre tlse rle h1 h2 h3 h4 h5 h6 h7 h8 h9
    have hsn : exGet (V2rayParser.build_vless cfg)
        [S "streamSettings", S "grpcSettings", S "serviceName"] =
        some (dgetD gre (S "service_name") (.str [])) := by
      rw [hb, exGet_ok, mkOutbound_stream_path, vGetPath_dict_cons,
        @dget_pd_append_some _ sec _ _ (by rfl)]
      rfl
    refine ⟨?_, ?_, ?_, ?_⟩
    · intro t ht
      rw [hsn]
      simp [dgetD, ht]
    · intro ht
      rw [hsn]
      simp [dgetD, ht]
    · rw [hb, exGet_ok, mkOutbound_stream_path, vGetPath_dict_cons,
        @dget_pd_append_none _ sec _ (by rfl), hs3]
    · rw [hb, exGet_ok, mkOutbound_stream_path, vGetPath_dict_cons,
        @dget_pd_append_none _ sec _ (by rfl), hs1]
  · exact ⟨_, rfl, rfl, rfl, rfl⟩

/-- Witness for C7 at a concrete WebSocket configuration carrying the
keys `_build_vless` reads: the supplied path and a truthy host value land
in `wsSettings`, and no `tcpSettings` block is present. -/
theorem c7_transport_mapping_witness :
    exGet (V2rayParser.build_vless sampleWsConfig)
      [S "streamSettings", S "wsSettings", S "path"] = some (.str (S "/chat")) ∧
    exGet (V2rayParser.build_vless sampleWsConfig)
      [S "streamSettings", S "wsSettings", S "headers"] =
      some (.dict (pd [(S "Host", .str (S "cdn.example.com"))])) ∧
    exGet (V2rayParser.build_vless sampleWsConfig)
      [S "streamSettings", S "tcpSettings"] = Option.none :=
  ⟨(c7_transport_mapping.1 sampleWsConfig _ _ _ _ _
      (pd [(S "path", .str (S "/chat")), (S "host", .str (S "cdn.example.com"))])
      .nil .nil rfl rfl rfl rfl rfl rfl rfl rfl rfl).1 (.str (S "/chat")) rfl,
   (c7_transport_mapping.1 sampleWsConfig _ _ _ _ _
      (pd [(S "path", .str (S "/chat")), (S "host", .str (S "cdn.example.com"))])
      .nil .nil rfl rfl rfl rfl rfl rfl rfl rfl rfl).2.2.1
      (.str (S "cdn.example.com")) rfl rfl,
   (c7_transport_mapping.1 sampleWsConfig _ _ _ _ _
      (pd [(S "path", .str (S "/chat")), (S "host", .str (S "cdn.example.com"))])
      .nil .nil rfl rfl rfl rfl rfl rfl rfl rfl rfl).2.2.2.2.2.1⟩

/-- **C8**: the ALPN handling of the decoder.  Whenever the security value
makes the `tls` sub-record exist, its `alpn` field is the comma-split of
the query's `alpn` value when that value is present and nonempty, and the
empty list when the value is absent or empty — never a one-element list
holding the empty string.  The second conjunct exercises the claim's edge
case: a URI whose query literally contains `alpn=` (parse_qsl drops the
blank value, and the decoder's truthiness guard turns it into `[]`); the
third shows the comma-split on the concrete two-protocol URI. -/
theorem c8_alpn_empty_and_split :
    (∀ (remarks : Str) (params : Params) (uuid server : Str) (port : Int),
      (paramsGetD params (S "security") (S "none") = S "tls" ∨
       paramsGetD params (S "security") (S "none") = S "reality") →
      ∃ tlsd, dget (V2rayParser.vlessConfigOf remarks params uuid server port)
          (S "tls") = some (.dict tlsd) ∧
        (∀ a, paramsGet params (S "alpn") = some a → a ≠ [] →
          dget tlsd (S "alpn") = some (.list (pl ((pySplitAll ',' a).map PyVal.str)))) ∧
        (paramsGet params (S "alpn") = some [] →
          dget tlsd (S "alpn") = some (.list .nil)) ∧
        (paramsGet params (S "alpn") = Option.none →
          dget tlsd (S "alpn") = some (.list .nil))) ∧
    (∃ cfg tlsd, V2rayParser.parse_vless uriAlpnEmpty = .ok cfg ∧
      dget cfg (S "tls") = some (.dict tlsd) ∧
      dget tlsd (S "alpn") = some (.list .nil)) ∧
    (∃ cfg tlsd, V2rayParser.parse_vless uriAlpnTwo = .ok cfg ∧
      dget cfg (S "tls") = some (.dict tlsd) ∧
      dget tlsd (S "alpn") =
        some (.list (pl [.str (S "h2"), .str (S "http/1.1")]))) := by
  refine ⟨?_, ⟨_, _, rfl, rfl, rfl⟩, ⟨_, _, rfl, rfl, rfl⟩⟩
  intro remarks params uuid server port hsec
  refine ⟨pd [
    (S "server_name", .str (paramsGetD params (S "sni") server)),
    (S "fingerprint", .str (paramsGetD params (S "fp") (S "chrome"))),
    (S "alpn", .list (pl (match paramsGet params (S "alpn") with
      | some a => if a ≠ [] then (pySplitAll ',' a).map PyVal.str else []
      | Option.none => [])))], ?_, ?_, ?_, ?_⟩
  · unfold V2rayParser.vlessConfigOf
    rw [List.append_assoc,
      dget_pd_append_none (base_tls_none remarks params uuid server port),
      dget_pd_append_none (netList_other_key params (S "tls")
        (by decide) (by decide) (by decide))]
    unfold vlessSecList
    rw [if_pos hsec, dget_pd_cons_eq]
  · intro a ha hne
    rw [dget_pd_cons_ne (by decide), dget_pd_cons_ne (by decide), dget_pd_cons_eq]
    simp only [ha]
    rw [if_pos hne]
  · intro ha
    rw [dget_pd_cons_ne (by decide), dget_pd_cons_ne (by decide), dget_pd_cons_eq]
    simp only [ha]
    rfl
  · intro ha
    rw [dget_pd_cons_ne (by decide), dget_pd_cons_ne (by decide), dget_pd_cons_eq]
    simp only [ha]
    rfl

set_option maxRecDepth 100000 in
/-- Witness for the general ALPN conjunct of C8 at the parameters of the
concrete two-protocol URI. -/
theorem c8_alpn_empty_and_split_witness :
    ∃ tlsd, dget (V2rayParser.vlessConfigOf (S "VLESS")
        (paramsOfList (parse_qsl (S "security=tls&alpn=h2,http/1.1")))
        (S "u") (S "h") 1) (S "tls") = some (.dict tlsd) ∧
      dget tlsd (S "alpn") =
        some (.list (pl ((pySplitAll ',' (S "h2,http/1.1")).map PyVal.str))) := by
  obtain ⟨tlsd, h1, h2, _, _⟩ := c8_alpn_empty_and_split.1 (S "VLESS")
    (paramsOfList (parse_qsl (S "security=tls&alpn=h2,http/1.1")))
    (S "u") (S "h") 1 (Or.inl rfl)
  exact ⟨tlsd, h1, h2 (S "h2,http/1.1") rfl (by decide)⟩

/-! ## Round-trip correctness of the JSON model -/

theorem skipWs_cons_nws {c : Char} {s : Str} (h : isWsJ c = false) :
    skipWs (c :: s) = c :: s := by
  unfold skipWs
  rw [h]
  rfl

theorem skipWs_cons_ws {c : Char} {s : Str} (h : isWsJ c = true) :
    skipWs (c :: s) = skipWs s := by
  show (if isWsJ c = true then skipWs s else c :: s) = skipWs s
  rw [if_pos h]

theorem skipWs_append_ws {w : Str} (s : Str) (h : wsOnly w) :
    skipWs (w ++ s) = skipWs s := by
  induction w with
  | nil => rfl
  | cons c t ih =>
      rw [List.cons_append, skipWs_cons_ws (h c (List.mem_cons_self c t))]
      exact ih (fun x hx => h x (List.mem_cons_of_mem c hx))

theorem pad_wsOnly (d : Nat) : wsOnly (pad d) := by
  intro c hc
  have := List.eq_of_mem_replicate hc
  rw [this]
  rfl

theorem skipWs_nl_pad (d : Nat) (s : Str) :
    skipWs ('\n' :: (pad d ++ s)) = skipWs s := by
  rw [skipWs_cons_ws (by decide), skipWs_append_ws s (pad_wsOnly d)]

theorem digitVal_digitChar : ∀ m, m < 10 → digitVal (digitChar m) = m := by decide

theorem isDigitC_digitChar : ∀ m, m < 10 → isDigitC (digitChar m) = true := by decide

theorem hexDigitVal_hexChar : ∀ m, m < 16 → hexDigitVal (hexChar m) = some m := by decide

theorem hex4_toHex4 (n : Nat) (h : n < 65536) :
    hex4 (hexChar (n / 4096)) (hexChar (n / 256 % 16)) (hexChar (n / 16 % 16))
      (hexChar (n % 16)) = some n := by
  unfold hex4
  rw [hexDigitVal_hexChar (n / 4096) (by omega),
      hexDigitVal_hexChar (n / 256 % 16) (by omega),
      hexDigitVal_hexChar (n / 16 % 16) (by omega),
      hexDigitVal_hexChar (n % 16) (by omega)]
  simp only [Option.some.injEq]
  omega

theorem digit_facts {c : Char} (h : isDigitC c = true) :
    isWsJ c = false ∧ c ≠ 'n' ∧ c ≠ 't' ∧ c ≠ 'f' ∧ c ≠ '"' ∧ c ≠ '[' ∧
    c ≠ lbrace ∧ c ≠ '-' ∧ c ≠ ']' ∧ c ≠ rbrace ∧ c ≠ ',' := by
  have hc : 48 ≤ c.toNat ∧ c.toNat ≤ 57 := by
    unfold isDigitC at h
    exact of_decide_eq_true h
  refine ⟨?_, ?_, ?_, ?_, ?_, ?_, ?_, ?_, ?_, ?_, ?_⟩
  · exact decide_eq_false (by rintro (h1 | h1 | h1 | h1) <;>
      (subst h1; exact absurd hc (by decide)))
  all_goals
    intro he
    subst he
    exact absurd hc (by decide)

theorem natDigitsRevF_foldr :
    ∀ f n, n < f →
      List.foldr (fun c b => 10 * b + digitVal c) 0 (natDigitsRevF f n) = n := by
  intro f
  induction f with
  | zero => intro n h; omega
  | succ f ih =>
      intro n h
      unfold natDigitsRevF
      by_cases hz : n = 0
      · rw [if_pos hz]
        simp [hz]
      · rw [if_neg hz]
        simp only [List.foldr_cons]
        rw [ih (n / 10) (by omega), digitVal_digitChar (n % 10) (by omega)]
        omega

theorem natDigitsRevF_digits :
    ∀ f n c, c ∈ natDigitsRevF f n → isDigitC c = true := by
  intro f
  induction f with
  | zero => intro n c hc; cases hc
  | succ f ih =>
      intro n c hc
      unfold natDigitsRevF at hc
      by_cases hz : n = 0
      · rw [if_pos hz] at hc; cases hc
      · rw [if_neg hz] at hc
        rcases List.mem_cons.mp hc with h1 | h1
        · rw [h1]; exact isDigitC_digitChar (n % 10) (by omega)
        · exact ih (n / 10) c h1

theorem natToStr_digits {n : Nat} {c : Char} (h : c ∈ natToStr n) : isDigitC c = true := by
  unfold natToStr at h
  by_cases hz : n = 0
  · rw [if_pos hz] at h
    rcases List.mem_singleton.mp h with rfl
    decide
  · rw [if_neg hz] at h
    exact natDigitsRevF_digits (n + 1) n c (List.mem_reverse.mp h)

theorem digitsToNat_natToStr (n : Nat) : digitsToNat (natToStr n) = n := by
  unfold natToStr
  by_cases hz : n = 0
  · rw [if_pos hz, hz]; rfl
  · rw [if_neg hz]
    unfold digitsToNat
    rw [List.foldl_reverse]
    exact natDigitsRevF_foldr (n + 1) n (by omega)

theorem natToStr_ne_nil (n : Nat) : natToStr n ≠ [] := by
  unfold natToStr
  by_cases hz : n = 0
  · rw [if_pos hz]; exact List.cons_ne_nil _ _
  · rw [if_neg hz]
    unfold natDigitsRevF
    rw [if_neg hz]
    simp

theorem spanDigits_append {ds r : Str} (hd : ∀ c ∈ ds, isDigitC c = true)
    (hr : noDigitHead r) : spanDigits (ds ++ r) = (ds, r) := by
  induction ds with
  | nil =>
      rw [List.nil_append]
      cases r with
      | nil => rfl
      | cons c t =>
          unfold noDigitHead at hr
          unfold spanDigits
          rw [hr]
          rfl
  | cons c t ih =>
      rw [List.cons_append]
      unfold spanDigits
      rw [hd c (List.mem_cons_self c t), ih (fun x hx => hd x (List.mem_cons_of_mem c hx))]
      rfl

theorem parseNatM_natToStr (n : Nat) (rest : Str) (hr : noDigitHead rest) :
    parseNatM (natToStr n ++ rest) = some (n, rest) := by
  unfold parseNatM
  rw [spanDigits_append (fun c hc => natToStr_digits hc) hr]
  cases hn : natToStr n with
  | nil => exact absurd hn (natToStr_ne_nil n)
  | cons c t =>
      have hd : digitsToNat (c :: t) = n := by rw [← hn]; exact digitsToNat_natToStr n
      show some (digitsToNat (c :: t), rest) = some (n, rest)
      rw [hd]

theorem char_valid_range (c : Char) :
    c.toNat < 0xD800 ∨ (0xE000 ≤ c.toNat ∧ c.toNat < 0x110000) := c.valid

theorem escString_cons (c : Char) (s : Str) :
    escString (c :: s) = escapeChar c ++ escString s := by
  unfold escString
  simp only [List.map_cons, List.flatten_cons]

theorem parseStr_esc (Y : Str) :
    parseStr ('\\' :: Y) = parseEsc Y := by
  rw [parseStr, if_neg (show ¬ (('\\' : Char) = '"') by decide),
      if_pos (rfl : ('\\' : Char) = '\\')]

theorem parseEsc_named {e ec : Char} (Y : Str) (hu : ¬ e = 'u')
    (he : escCharOf e = some ec) :
    parseEsc (e :: Y) = withChar ec (parseStr Y) := by
  rw [parseEsc, if_neg hu, he]

theorem parseEsc_u (Y : Str) : parseEsc ('u' :: Y) = parseU Y := by
  rw [parseEsc, if_pos (rfl : ('u' : Char) = 'u')]

theorem parseStr_lit {c : Char} (Y : Str) (h1 : ¬ c = '"') (h2 : ¬ c = '\\')
    (h3 : ¬ c.toNat < 0x20) :
    parseStr (c :: Y) = withChar c (parseStr Y) := by
  rw [parseStr, if_neg h1, if_neg h2, if_neg h3]

theorem parseU_bmp {a b c d : Char} {n : Nat} (Y : Str) (hx : hex4 a b c d = some n)
    (h1 : ¬ (0xD800 ≤ n ∧ n ≤ 0xDBFF)) (h2 : ¬ (0xDC00 ≤ n ∧ n ≤ 0xDFFF)) :
    parseU (a :: b :: c :: d :: Y) = withChar (Char.ofNat n) (parseStr Y) := by
  rw [parseU, hx]
  simp only []
  rw [if_neg h1, if_neg h2]

theorem parseU_high {a b c d : Char} {n : Nat} (Y : Str) (hx : hex4 a b c d = some n)
    (h1 : 0xD800 ≤ n) (h2 : n ≤ 0xDBFF) :
    parseU (a :: b :: c :: d :: Y) = parseLow n Y := by
  rw [parseU, hx]
  simp only []
  rw [if_pos (⟨h1, h2⟩ : 0xD800 ≤ n ∧ n ≤ 0xDBFF)]

theorem parseLow_ok {e f g i : Char} {n l : Nat} (Y : Str) (hx : hex4 e f g i = some l)
    (h1 : 0xDC00 ≤ l) (h2 : l ≤ 0xDFFF) :
    parseLow n ('\\' :: 'u' :: e :: f :: g :: i :: Y)
      = withChar (Char.ofNat (0x10000 + (n - 0xD800) * 0x400 + (l - 0xDC00)))
          (parseStr Y) := by
  rw [parseLow, if_pos (show ('\\' : Char) = '\\' ∧ ('u' : Char) = 'u' from ⟨rfl, rfl⟩), hx]
  simp only []
  rw [if_pos (⟨h1, h2⟩ : 0xDC00 ≤ l ∧ l ≤ 0xDFFF)]

theorem parseStr_escString : ∀ (s rest : Str),
    parseStr (escString s ++ ('"' :: rest)) = some (s, rest) := by
  intro s
  induction s with
  | nil =>
      intro rest
      show parseStr ('"' :: rest) = some ([], rest)
      rw [parseStr, if_pos (rfl : ('"' : Char) = '"')]
  | cons c s ih =>
      intro rest
      rw [escString_cons, List.append_assoc]
      by_cases h1 : c = '"'
      · subst h1
        show parseStr ('\\' :: '"' :: (escString s ++ ('"' :: rest))) = some ('"' :: s, rest)
        rw [parseStr_esc, parseEsc_named _ (by decide) (rfl : escCharOf '"' = some '"'),
            ih rest]
        rfl
      by_cases h2 : c = '\\'
      · subst h2
        show parseStr ('\\' :: '\\' :: (escString s ++ ('"' :: rest))) = some ('\\' :: s, rest)
        rw [parseStr_esc, parseEsc_named _ (by decide) (rfl : escCharOf '\\' = some '\\'),
            ih rest]
        rfl
      by_cases h3 : c = '\n'
      · subst h3
        show parseStr ('\\' :: 'n' :: (escString s ++ ('"' :: rest))) = some ('\n' :: s, rest)
        rw [parseStr_esc, parseEsc_named _ (by decide) (rfl : escCharOf 'n' = some '\n'),
            ih rest]
        rfl
      by_cases h4 : c = '\r'
      · subst h4
        show parseStr ('\\' :: 'r' :: (escString s ++ ('"' :: rest))) = some ('\r' :: s, rest)
        rw [parseStr_esc, parseEsc_named _ (by decide) (rfl : escCharOf 'r' = some '\r'),
            ih rest]
        rfl
      by_cases h5 : c = '\t'
      · subst h5
        show parseStr ('\\' :: 't' :: (escString s ++ ('"' :: rest))) = some ('\t' :: s, rest)
        rw [parseStr_esc, parseEsc_named _ (by decide) (rfl : escCharOf 't' = some '\t'),
            ih rest]
        rfl
      by_cases h6 : c = Char.ofNat 8
      · subst h6
        show parseStr ('\\' :: 'b' :: (escString s ++ ('"' :: rest)))
          = some (Char.ofNat 8 :: s, rest)
        rw [parseStr_esc,
            parseEsc_named _ (by decide) (rfl : escCharOf 'b' = some (Char.ofNat 8)),
            ih rest]
        rfl
      by_cases h7 : c = Char.ofNat 12
      · subst h7
        show parseStr ('\\' :: 'f' :: (escString s ++ ('"' :: rest)))
          = some (Char.ofNat 12 :: s, rest)
        rw [parseStr_esc,
            parseEsc_named _ (by decide) (rfl : escCharOf 'f' = some (Char.ofNat 12)),
            ih rest]
        rfl
      by_cases h8 : 0x20 ≤ c.toNat ∧ c.toNat ≤ 0x7E
      · have hesc : escapeChar c = [c] := by
          unfold escapeChar
          rw [if_neg h1, if_neg h2, if_neg h3, if_neg h4, if_neg h5, if_neg h6, if_neg h7,
              if_pos h8]
        rw [hesc, List.cons_append, List.nil_append,
            parseStr_lit _ h1 h2 (by omega), ih rest]
        rfl
      by_cases h9 : c.toNat < 0x10000
      · have hesc : escapeChar c = '\\' :: 'u' :: toHex4 c.toNat := by
          unfold escapeChar
          rw [if_neg h1, if_neg h2, if_neg h3, if_neg h4, if_neg h5, if_neg h6, if_neg h7,
              if_neg h8, if_pos h9]
        have hval := char_valid_range c
        rw [hesc]
        unfold toHex4
        simp only [List.cons_append, List.nil_append]
        rw [parseStr_esc, parseEsc_u,
            parseU_bmp _ (hex4_toHex4 c.toNat h9)
              (by rcases hval with h | h <;> omega)
              (by rcases hval with h | h <;> omega),
            Char.ofNat_toNat, ih rest]
        rfl
      · have hesc : escapeChar c =
            ('\\' :: 'u' :: toHex4 (0xD800 + (c.toNat - 0x10000) / 0x400)) ++
            ('\\' :: 'u' :: toHex4 (0xDC00 + (c.toNat - 0x10000) % 0x400)) := by
          unfold escapeChar
          rw [if_neg h1, if_neg h2, if_neg h3, if_neg h4, if_neg h5, if_neg h6, if_neg h7,
              if_neg h8, if_neg h9]
        have hval := char_valid_range c
        have hhi : c.toNat < 0x110000 := by rcases hval with h | h <;> omega
        rw [hesc]
        unfold toHex4
        simp only [List.cons_append, List.nil_append, List.append_assoc]
        rw [parseStr_esc, parseEsc_u,
            parseU_high _ (hex4_toHex4 (0xD800 + (c.toNat - 0x10000) / 0x400) (by omega))
              (by omega) (by omega),
            parseLow_ok _ (hex4_toHex4 (0xDC00 + (c.toNat - 0x10000) % 0x400) (by omega))
              (by omega) (by omega)]
        rw [(by omega :
              0x10000 + (0xD800 + (c.toNat - 0x10000) / 0x400 - 0xD800) * 0x400 +
                (0xDC00 + (c.toNat - 0x10000) % 0x400 - 0xDC00) = c.toNat),
            Char.ofNat_toNat, ih rest]
        rfl

theorem psize_pos : ∀ v : PyVal, 1 ≤ psize v := by
  intro v
  cases v <;> simp only [psize] <;> omega

theorem noDigit_items (d : Nat) (vs : PyList) (X : Str) :
    noDigitHead (dumpItems d vs ++ ('\n' :: X)) := by
  cases vs with
  | nil => show isDigitC '\n' = false; decide
  | cons v vs => show isDigitC ',' = false; decide

theorem noDigit_entries (d : Nat) (es : PyDict) (X : Str) :
    noDigitHead (dumpEntries d es ++ ('\n' :: X)) := by
  cases es with
  | nil => show isDigitC '\n' = false; decide
  | cons k v es => show isDigitC ',' = false; decide

theorem dumpVal_head (d : Nat) (v : PyVal) :
    ∃ c t, dumpVal d v = c :: t ∧ isWsJ c = false ∧ ¬ c = ']' ∧ ¬ c = rbrace := by
  cases v with
  | none => exact ⟨'n', S "ull", rfl, by decide, by decide, by decide⟩
  | bool b =>
      cases b with
      | true => exact ⟨'t', S "rue", rfl, by decide, by decide, by decide⟩
      | false => exact ⟨'f', S "alse", rfl, by decide, by decide, by decide⟩
  | int n =>
      by_cases hn : n < 0
      · refine ⟨'-', natToStr n.natAbs, ?_, by decide, by decide, by decide⟩
        show intToStr n = '-' :: natToStr n.natAbs
        unfold intToStr
        rw [if_pos hn]
      · obtain ⟨c, t, hct⟩ : ∃ c t, natToStr n.natAbs = c :: t := by
          cases h : natToStr n.natAbs with
          | nil => exact absurd h (natToStr_ne_nil _)
          | cons c t => exact ⟨c, t, rfl⟩
        have hc : isDigitC c = true := natToStr_digits (hct ▸ List.mem_cons_self c t)
        obtain ⟨hw, _, _, _, _, _, _, _, hb, hr, _⟩ := digit_facts hc
        refine ⟨c, t, ?_, hw, hb, hr⟩
        show intToStr n = c :: t
        unfold intToStr
        rw [if_neg hn, hct]
  | str s => exact ⟨'"', escString s ++ ['"'], rfl, by decide, by decide, by decide⟩
  | list l =>
      cases l with
      | nil => exact ⟨'[', [']'], rfl, by decide, by decide, by decide⟩
      | cons v vs =>
          exact ⟨'[', '\n' :: (pad (d + 1) ++ (dumpVal (d + 1) v ++
            (dumpItems (d + 1) vs ++ ('\n' :: (pad d ++ [']']))))),
            rfl, by decide, by decide, by decide⟩
  | dict e =>
      cases e with
      | nil => exact ⟨lbrace, [rbrace], rfl, by decide, by decide, by decide⟩
      | cons k v es =>
          exact ⟨lbrace, '\n' :: (pad (d + 1) ++ (dumpKey k ++ (dumpVal (d + 1) v ++
            (dumpEntries (d + 1) es ++ ('\n' :: (pad d ++ [rbrace])))))),
            rfl, by decide, by decide, by decide⟩

theorem parseValCore_num {c : Char} (f : Nat) (Y : Str) (hn : ¬ c = 'n')
    (ht : ¬ c = 't') (hf : ¬ c = 'f') (hq : ¬ c = '"') (hb : ¬ c = '[')
    (hl : ¬ c = lbrace) (hm : ¬ c = '-') :
    parseValCore (f + 1) (c :: Y)
      = (parseNatM (c :: Y)).map (fun p => (PyVal.int (p.1 : Int), p.2)) := by
  rw [parseValCore]
  simp only []
  rw [if_neg hn, if_neg ht, if_neg hf, if_neg hq, if_neg hb, if_neg hl, if_neg hm]

theorem parseValCore_arr (f : Nat) (Y : Str) :
    parseValCore (f + 1) ('[' :: Y)
      = if (skipWs Y).head? = some ']' then some (PyVal.list PyList.nil, (skipWs Y).tail)
        else (parseItems f (skipWs Y)).map (fun p => (PyVal.list p.1, p.2)) := rfl

theorem parseValCore_obj (f : Nat) (Y : Str) :
    parseValCore (f + 1) (lbrace :: Y)
      = if (skipWs Y).head? = some rbrace then some (PyVal.dict PyDict.nil, (skipWs Y).tail)
        else (parseEntries f (skipWs Y)).map (fun p => (PyVal.dict p.1, p.2)) := rfl

theorem skipWs_dumpVal (d : Nat) (v : PyVal) (X : Str) :
    skipWs (dumpVal d v ++ X) = dumpVal d v ++ X := by
  obtain ⟨c, t, he, hw, _, _⟩ := dumpVal_head d v
  rw [he, List.cons_append, skipWs_cons_nws hw, ← List.cons_append, ← he]

theorem dumpVal_head_ne_rbracket (d : Nat) (v : PyVal) (X : Str) :
    ¬ ((dumpVal d v ++ X).head? = some ']') := by
  obtain ⟨c, t, he, _, hb, _⟩ := dumpVal_head d v
  rw [he, List.cons_append, List.head?_cons]
  intro h
  exact hb (Option.some.inj h)

theorem dumpVal_head_ne_rbrace (d : Nat) (v : PyVal) (X : Str) :
    ¬ ((dumpVal d v ++ X).head? = some rbrace) := by
  obtain ⟨c, t, he, _, _, hr⟩ := dumpVal_head d v
  rw [he, List.cons_append, List.head?_cons]
  intro h
  exact hr (Option.some.inj h)

theorem dumpKey_cons (k : Str) (X : Str) :
    dumpKey k ++ X = '"' :: (escString k ++ ('"' :: ':' :: ' ' :: X)) := by
  simp only [dumpKey, List.cons_append, List.append_assoc, List.nil_append]

theorem skipWs_dumpKey (k : Str) (X : Str) :
    skipWs (dumpKey k ++ X) = dumpKey k ++ X := by
  rw [dumpKey_cons, skipWs_cons_nws (by decide)]

theorem dumpKey_head_ne_rbrace (k : Str) (X : Str) :
    ¬ ((dumpKey k ++ X).head? = some rbrace) := by
  rw [dumpKey_cons, List.head?_cons]
  intro h
  exact absurd (Option.some.inj h) (by decide)

theorem wsOnly_nil : wsOnly [] :=
  fun x hx => absurd hx (List.not_mem_nil x)

theorem wsOnly_nl_pad (d : Nat) : wsOnly ('\n' :: pad d) := by
  intro x hx
  rcases List.mem_cons.mp hx with h | h
  · subst h; decide
  · exact pad_wsOnly d x h


theorem parseValCore_neg (f : Nat) (Y : Str) :
    parseValCore (f + 1) ('-' :: Y)
      = (parseNatM Y).map (fun p => (PyVal.int (-(p.1 : Int)), p.2)) := rfl

theorem parseValCore_str (f : Nat) (Y : Str) :
    parseValCore (f + 1) ('"' :: Y)
      = (parseStr Y).map (fun p => (PyVal.str p.1, p.2)) := rfl

theorem dumpVal_list_cons (d : Nat) (v : PyVal) (vs : PyList) :
    dumpVal d (PyVal.list (PyList.cons v vs))
      = '[' :: '\n' :: (pad (d + 1) ++ (dumpVal (d + 1) v ++
          (dumpItems (d + 1) vs ++ ('\n' :: (pad d ++ [']']))))) := rfl

theorem dumpVal_dict_cons (d : Nat) (k : Str) (v : PyVal) (es : PyDict) :
    dumpVal d (PyVal.dict (PyDict.cons k v es))
      = lbrace :: '\n' :: (pad (d + 1) ++ (dumpKey k ++ (dumpVal (d + 1) v ++
          (dumpEntries (d + 1) es ++ ('\n' :: (pad d ++ [rbrace])))))) := rfl

theorem parse_dump_all : ∀ f : Nat,
    (∀ d v rest, psize v ≤ f → noDigitHead rest →
       parseValCore f (dumpVal d v ++ rest) = some (v, rest)) ∧
    (∀ d v vs w0 w rest, psizeL (PyList.cons v vs) ≤ f → wsOnly w0 → wsOnly w →
       parseItems f (w0 ++ (dumpVal d v ++ (dumpItems d vs ++ ('\n' :: (w ++ (']' :: rest))))))
         = some (PyList.cons v vs, rest)) ∧
    (∀ d k v es w0 w rest, psizeD (PyDict.cons k v es) ≤ f → wsOnly w0 → wsOnly w →
       parseEntries f (w0 ++ (dumpKey k ++ (dumpVal d v ++ (dumpEntries d es ++
         ('\n' :: (w ++ (rbrace :: rest))))))) = some (PyDict.cons k v es, rest)) := by
  intro f
  induction f with
  | zero =>
      refine ⟨?_, ?_, ?_⟩
      · intro d v rest hf _
        exact absurd hf (by have := psize_pos v; omega)
      · intro d v vs w0 w rest hf _ _
        simp only [psizeL] at hf
        exact absurd hf (by have := psize_pos v; omega)
      · intro d k v es w0 w rest hf _ _
        simp only [psizeD] at hf
        exact absurd hf (by have := psize_pos v; omega)
  | succ f ih =>
      obtain ⟨ihP, ihL, ihD⟩ := ih
      refine ⟨?_, ?_, ?_⟩
      · intro d v rest hf hrest
        cases v with
        | none => exact rfl
        | bool b => cases b with
            | true => exact rfl
            | false => exact rfl
        | int n =>
            by_cases hn : n < 0
            · have h1 : dumpVal d (PyVal.int n) = '-' :: natToStr n.natAbs := by
                show intToStr n = '-' :: natToStr n.natAbs
                unfold intToStr
                rw [if_pos hn]
              rw [h1, List.cons_append, parseValCore_neg f (natToStr n.natAbs ++ rest),
                  parseNatM_natToStr n.natAbs rest hrest]
              show some (PyVal.int (-(n.natAbs : Int)), rest) = some (PyVal.int n, rest)
              rw [(by omega : -((n.natAbs : Int)) = n)]
            · have h1 : dumpVal d (PyVal.int n) = natToStr n.natAbs := by
                show intToStr n = natToStr n.natAbs
                unfold intToStr
                rw [if_neg hn]
              obtain ⟨c, t, hct⟩ : ∃ c t, natToStr n.natAbs = c :: t := by
                cases h : natToStr n.natAbs with
                | nil => exact absurd h (natToStr_ne_nil _)
                | cons c t => exact ⟨c, t, rfl⟩
              have hc : isDigitC c = true := natToStr_digits (hct ▸ List.mem_cons_self c t)
              obtain ⟨_, hcn, hct2, hcf, hcq, hcb, hcl, hcm, _, _, _⟩ := digit_facts hc
              rw [h1, hct, List.cons_append,
                  parseValCore_num f (t ++ rest) hcn hct2 hcf hcq hcb hcl hcm,
                  ← List.cons_append, ← hct, parseNatM_natToStr n.natAbs rest hrest]
              show some (PyVal.int (n.natAbs : Int), rest) = some (PyVal.int n, rest)
              rw [(by omega : ((n.natAbs : Int)) = n)]
        | str s =>
            show parseValCore (f + 1) ('"' :: ((escString s ++ ['"']) ++ rest))
              = some (PyVal.str s, rest)
            rw [parseValCore_str f ((escString s ++ ['"']) ++ rest), List.append_assoc]
            simp only [List.cons_append, List.nil_append]
            rw [parseStr_escString s rest]
            rfl
        | list l =>
            cases l with
            | nil => exact rfl
            | cons v vs =>
                rw [dumpVal_list_cons d v vs]
                simp only [List.cons_append, List.append_assoc, List.nil_append]
                rw [parseValCore_arr f _, skipWs_nl_pad (d + 1) _, skipWs_dumpVal,
                    if_neg (dumpVal_head_ne_rbracket (d + 1) v _)]
                have hI := ihL (d + 1) v vs [] (pad d) rest
                  (by simp only [psize] at hf; omega) wsOnly_nil (pad_wsOnly d)
                simp only [List.nil_append] at hI
                rw [hI]
                rfl
        | dict e =>
            cases e with
            | nil => exact rfl
            | cons k v es =>
                rw [dumpVal_dict_cons d k v es]
                simp only [List.cons_append, List.append_assoc, List.nil_append]
                rw [parseValCore_obj f _, skipWs_nl_pad (d + 1) _, skipWs_dumpKey,
                    if_neg (dumpKey_head_ne_rbrace k _)]
                have hI := ihD (d + 1) k v es [] (pad d) rest
                  (by simp only [psize] at hf; omega) wsOnly_nil (pad_wsOnly d)
                simp only [List.nil_append] at hI
                rw [hI]
                rfl
      · intro d v vs w0 w rest hf hw0 hw
        rw [parseItems, skipWs_append_ws _ hw0, skipWs_dumpVal,
            ihP d v _ (by simp only [psizeL] at hf; have := psize_pos v; omega)
              (noDigit_items d vs _)]
        simp only []
        cases vs with
        | nil =>
            simp only [dumpItems, List.nil_append]
            rw [skipWs_cons_ws (by decide), skipWs_append_ws _ hw,
                skipWs_cons_nws (by decide)]
            simp only [if_true]
            rw [if_neg (by decide : ¬ ((']' : Char) = ','))]
        | cons v2 vs2 =>
            simp only [dumpItems, List.cons_append, List.append_assoc]
            rw [skipWs_cons_nws (by decide)]
            simp only [if_true]
            have hI := ihL d v2 vs2 ('\n' :: pad d) w rest
              (by simp only [psizeL] at hf ⊢; have := psize_pos v; omega)
              (wsOnly_nl_pad d) hw
            simp only [List.cons_append] at hI
            rw [hI]
            rfl
      · intro d k v es w0 w rest hf hw0 hw
        rw [parseEntries, skipWs_append_ws _ hw0, skipWs_dumpKey, dumpKey_cons]
        simp only [if_true]
        rw [parseStr_escString k _]
        simp only []
        rw [skipWs_cons_nws (by decide)]
        simp only [if_true]
        rw [skipWs_cons_ws (by decide), skipWs_dumpVal,
            ihP d v _ (by simp only [psizeD] at hf; omega) (noDigit_entries d es _)]
        simp only []
        cases es with
        | nil =>
            simp only [dumpEntries, List.nil_append]
            rw [skipWs_cons_ws (by decide), skipWs_append_ws _ hw,
                skipWs_cons_nws (by decide)]
            simp only []
            rw [if_neg (by decide : ¬ (rbrace = ','))]
            simp only [if_true]
        | cons k2 v2 es2 =>
            simp only [dumpEntries, List.cons_append, List.append_assoc]
            rw [skipWs_cons_nws (by decide)]
            simp only [if_true]
            have hI := ihD d k2 v2 es2 ('\n' :: pad d) w rest
              (by simp only [psizeD] at hf ⊢; have := psize_pos v; omega)
              (wsOnly_nl_pad d) hw
            simp only [List.cons_append] at hI
            rw [hI]
            rfl

theorem dumpVal_length_pos (d : Nat) (v : PyVal) : 1 ≤ (dumpVal d v).length := by
  obtain ⟨c, t, he, _, _, _⟩ := dumpVal_head d v
  rw [he, List.length_cons]
  omega

theorem psize_le_dump_all : ∀ n : Nat,
    (∀ d v, psize v ≤ n → psize v ≤ (dumpVal d v).length) ∧
    (∀ d l, psizeL l ≤ n → psizeL l ≤ (dumpItems d l).length) ∧
    (∀ d e, psizeD e ≤ n → psizeD e ≤ (dumpEntries d e).length) := by
  intro n
  induction n with
  | zero =>
      refine ⟨?_, ?_, ?_⟩
      · intro d v hf
        exact absurd hf (by have := psize_pos v; omega)
      · intro d l hf
        cases l with
        | nil => exact Nat.zero_le _
        | cons v vs =>
            simp only [psizeL] at hf
            exact absurd hf (by have := psize_pos v; omega)
      · intro d e hf
        cases e with
        | nil => exact Nat.zero_le _
        | cons k v es =>
            simp only [psizeD] at hf
            exact absurd hf (by have := psize_pos v; omega)
  | succ n ih =>
      obtain ⟨ihV, ihL2, ihD2⟩ := ih
      refine ⟨?_, ?_, ?_⟩
      · intro d v hf
        cases v with
        | none => exact dumpVal_length_pos d _
        | bool b => exact dumpVal_length_pos d _
        | int m => exact dumpVal_length_pos d _
        | str s => exact dumpVal_length_pos d _
        | list l =>
            cases l with
            | nil => exact dumpVal_length_pos d _
            | cons v vs =>
                have h1 := ihV (d + 1) v
                  (by simp only [psize, psizeL] at hf; have := psize_pos v; omega)
                have h2 := ihL2 (d + 1) vs
                  (by simp only [psize, psizeL] at hf; have := psize_pos v; omega)
                rw [dumpVal_list_cons]
                simp only [psize, psizeL, List.length_cons, List.length_append,
                  List.length_nil]
                omega
        | dict e =>
            cases e with
            | nil => exact dumpVal_length_pos d _
            | cons k v es =>
                have h1 := ihV (d + 1) v
                  (by simp only [psize, psizeD] at hf; have := psize_pos v; omega)
                have h2 := ihD2 (d + 1) es
                  (by simp only [psize, psizeD] at hf; have := psize_pos v; omega)
                rw [dumpVal_dict_cons]
                simp only [psize, psizeD, List.length_cons, List.length_append,
                  List.length_nil]
                omega
      · intro d l hf
        cases l with
        | nil => exact Nat.zero_le _
        | cons v vs =>
            have h1 := ihV d v (by simp only [psizeL] at hf; have := psize_pos v; omega)
            have h2 := ihL2 d vs (by simp only [psizeL] at hf; have := psize_pos v; omega)
            simp only [psizeL, dumpItems, List.length_cons, List.length_append,
              List.length_nil]
            omega
      · intro d e hf
        cases e with
        | nil => exact Nat.zero_le _
        | cons k v es =>
            have h1 := ihV d v (by simp only [psizeD] at hf; have := psize_pos v; omega)
            have h2 := ihD2 d es (by simp only [psizeD] at hf; have := psize_pos v; omega)
            simp only [psizeD, dumpEntries, List.length_cons, List.length_append,
              List.length_nil]
            omega

theorem json_round_trip (v : PyVal) : jsonLoads (jsonDump v) = some v := by
  unfold jsonLoads jsonDump parseVal
  obtain ⟨c, t, he, hw, _, _⟩ := dumpVal_head 0 v
  rw [he, skipWs_cons_nws hw, ← he]
  have hP := (parse_dump_all ((dumpVal 0 v).length + 1)).1 0 v []
    (by have := (psize_le_dump_all (psize v)).1 0 v (Nat.le_refl _); omega)
    trivial
  rw [List.append_nil] at hP
  rw [hP]
  rfl

/-- **C5**: the save/load round trip of the builder.  For every builder
state whose assembly succeeds with document `d`, writing the configuration
(`save`, which stores the `json.dump(..., indent=4)` text of `d`) and
loading it back (`load`, `json.load` of the stored text) returns exactly
`d`: `load(save(d)) == d` with structural equality. -/
theorem c5_save_load_round_trip (c : ClientConfig) (d : PyVal)
    (h : ClientConfig.build_config c = .ok d) :
    (ClientConfig.save c).bind ClientConfig.load = .ok d := by
  unfold ClientConfig.save
  rw [h]
  show ClientConfig.load (jsonDump d) = .ok d
  unfold ClientConfig.load
  rw [json_round_trip d]

/-- Witness for C5 at the sample builder state: its assembly succeeds with
`sampleDoc`, and saving then loading returns that document. -/
theorem c5_save_load_round_trip_witness :
    (ClientConfig.save sampleClientConfig).bind ClientConfig.load = .ok sampleDoc :=
  c5_save_load_round_trip sampleClientConfig sampleDoc (by rfl)
